import Mathlib

/-!
Verification development for the AXP trust-and-intent signal pipeline.

The Python sources are embedded shallowly:

* numeric values are modelled by `ℚ` (the Python code computes with floats;
  every claim checked here is either exact arithmetic or carries an explicit
  tolerance that exact rational arithmetic satisfies a fortiori);
* fallible Python code (code that can raise) is modelled by
  `Except String α`, with the error string naming the Python exception;
* the transcendental library functions `math.exp`, `math.log`, `math.sqrt`
  are modelled by an arbitrary interpretation `RealFuns` constrained by
  positivity facts that are theorems of real analysis for the actual
  functions, so everything proved below holds in particular for the real
  interpretation while all definitions stay executable;
* external inputs (HTTP fetches, WHOIS lookups, the historical store) that
  the Python sources stub with mock payloads are taken as explicit
  parameters, since the claims quantify over the fetched data;
* `datetime` values carry their timezone-awareness flag, because Python
  refuses to compare offset-naive and offset-aware datetimes and several
  claims hinge on exactly that behaviour.
-/

namespace AXP

/-- Checked division modelling Python's `/` operator, which raises
`ZeroDivisionError` when the divisor is zero (for ints and floats alike). -/
def pyDiv (a b : ℚ) : Except String ℚ :=
  if b = 0 then .error "ZeroDivisionError: division by zero" else .ok (a / b)

/-- A Python `datetime` value: a timestamp (measured in hours on a rational
timeline, which is enough for every comparison the sources perform) together
with its timezone-awareness flag. -/
structure PyDateTime where
  t : ℚ
  aware : Bool
deriving DecidableEq, Repr

/-- Python `<` on datetimes: raises `TypeError` when exactly one operand is
timezone-aware. -/
def pyLtDT (a b : PyDateTime) : Except String Bool :=
  if a.aware = b.aware then .ok (decide (a.t < b.t))
  else .error "TypeError: cannot compare offset-naive and offset-aware datetimes"

/-- An ISO-8601 date string, abstracted to the timestamp it denotes and
whether it carries a UTC designator (a trailing `Z` or an explicit offset).
`datetime.fromisoformat` turns it into an aware datetime exactly when the
designator is present. -/
structure DateStr where
  t : ℚ
  suffixZ : Bool
deriving DecidableEq, Repr

/-- `datetime.fromisoformat` (Python 3.11 semantics: a trailing `Z` or offset
yields an offset-aware value; without one the result is naive).  The callers
in `trust_verifier.py` either pass the string through
`.replace("Z", "+00:00")` first or hand it over unchanged; both turn a
`Z`-suffixed string into an aware datetime. -/
def parseIso (d : DateStr) : PyDateTime := ⟨d.t, d.suffixZ⟩

/-- Python's `str.lower()` over the character list (the library
`String.toLower` is definitionally opaque in this toolchain, so the model
maps `Char.toLower` itself). -/
def strToLower (s : String) : String := ⟨s.data.map Char.toLower⟩

/-- Interpretation of the transcendental functions used by the sources
(`math.exp`, `math.log`, `math.sqrt`).  The positivity fields are facts of
real analysis for the actual functions; every theorem below quantifies over
the interpretation, so it holds for the real one. -/
structure RealFuns where
  exp : ℚ → ℚ
  log : ℚ → ℚ
  sqrt : ℚ → ℚ
  exp_pos : ∀ x, 0 < exp x
  sqrt_pos : ∀ x, 0 < x → 0 < sqrt x
  log_pos : ∀ x, 1 < x → 0 < log x

/-- A trivial interpretation, used only to instantiate witnesses on concrete
inputs. -/
def simpleRealFuns : RealFuns where
  exp := fun _ => 1
  log := fun _ => 1
  sqrt := fun _ => 1
  exp_pos := fun _ => one_pos
  sqrt_pos := fun _ _ => one_pos
  log_pos := fun _ _ => one_pos

/-! ## Trust verifier: data model (`trust_verifier.py`) -/

/-- The review-statistics dictionaries handled by `verify_review_source`
(`actual`/`expected`/snapshot payloads).  Each field models the presence and
value of the corresponding dictionary key; `history` is the list of per-day
review counts and `rating_distribution` the list of per-bin counts in key
order `"1"` to `"5"`. -/
structure ReviewStats where
  avg_rating : Option ℚ := none
  total_reviews : Option ℚ := none
  verified_ratio : Option ℚ := none
  history : Option (List ℚ) := none
  rating_distribution : Option (List ℚ) := none
deriving DecidableEq, Repr

/-- The keys present in a `ReviewStats` dictionary, in field order. -/
def ReviewStats.keys (d : ReviewStats) : List String :=
  (if d.avg_rating.isSome then ["avg_rating"] else []) ++
  (if d.total_reviews.isSome then ["total_reviews"] else []) ++
  (if d.verified_ratio.isSome then ["verified_ratio"] else []) ++
  (if d.history.isSome then ["history"] else []) ++
  (if d.rating_distribution.isSome then ["rating_distribution"] else [])

/-- Membership of a key in a `ReviewStats` dictionary. -/
def ReviewStats.hasKey (d : ReviewStats) (k : String) : Bool :=
  decide (k ∈ d.keys)

/-- The helper `both(dict1, dict2)` of `trust_verifier.py` (lines 527-529):
`all(k in d for k in dict1.keys() & dict2.keys() for d in [dict1, dict2])`.
It returns a `bool` (in fact always `True`, since the generator ranges over
the key intersection), not a container. -/
def both (d1 d2 : ReviewStats) : Bool :=
  ((d1.keys).inter (d2.keys)).all fun k => d1.hasKey k && d2.hasKey k

/-- Python's membership test `x in y` applied to a `bool` value `y`: this is
a `TypeError` (`argument of type 'bool' is not iterable`), which is exactly
what `'avg_rating' in both(actual, expected)` executes. -/
def pyInBool (_k : String) (_b : Bool) : Except String Bool :=
  .error "TypeError: argument of type bool is not iterable"

/-- `TrustVerifier._detect_review_anomalies`.  The Python body evaluates
`'avg_rating' in both(actual, expected)` first, which raises `TypeError`
because `both` returns a `bool`; the remaining statements are translated
faithfully but are unreachable.  Inside the reachable-if-fixed branches the
Python code would index `actual['avg_rating']` directly, so the `none`
cases of the matches below are likewise unreachable. -/
def detectReviewAnomalies (actual expected : ReviewStats) :
    Except String (List String) := do
  let k1 ← pyInBool "avg_rating" (both actual expected)
  let a1 : List String :=
    if k1 then
      match actual.avg_rating, expected.avg_rating with
      | some a, some e => if |a - e| > 1/2 then ["Rating discrepancy"] else []
      | _, _ => []
    else []
  let k2 ← pyInBool "total_reviews" (both actual expected)
  let a2 : List String :=
    if k2 then
      match actual.total_reviews, expected.total_reviews with
      | some a, some e =>
          if a > e * (3/2) then ["Suspicious review count increase"] else []
      | _, _ => []
    else []
  let a3 : List String :=
    match actual.verified_ratio with
    | some v => if v < 3/10 then ["Low verified review ratio"] else []
    | none => []
  pure (a1 ++ a2 ++ a3)

/-- Sample standard deviation (`statistics.stdev`): square root of the
sum of squared deviations from the mean divided by `n - 1`.  The callers
guard `n ≥ 2`. -/
def sampleStdev (RF : RealFuns) (xs : List ℚ) : ℚ :=
  let n : ℚ := xs.length
  let mean := xs.sum / n
  RF.sqrt ((xs.map fun x => (x - mean) ^ 2).sum / (n - 1))

/-- `TrustVerifier._detect_time_anomalies` over the per-day counts. -/
def detectTimeAnomalies (RF : RealFuns) (history : List ℚ) : List String :=
  if history.length < 3 then []
  else
    let mean := history.sum / (history.length : ℚ)
    let std := if history.length > 1 then sampleStdev RF history else 0
    let spikes :=
      (history.enum.filter fun p => decide (0 < std) && decide (p.2 > mean + 3 * std)).map
        fun p => "Review spike on day " ++ toString p.1
    let clusterDays := (history.filter fun c => decide (c > mean * 3)).length
    let cluster :=
      if (clusterDays : ℚ) > (history.length : ℚ) * (1/10) then
        ["Review clustering detected"]
      else []
    spikes ++ cluster

/-- `TrustVerifier._detect_distribution_anomalies` over the per-bin counts in
key order.  Python indexes `counts[2]` and `counts[4]` directly and would
raise `IndexError` on fewer than five bins; snapshots carry five bins, and
the whole function is unreachable from `verify_review_source` because
`_detect_review_anomalies` raises first. -/
def detectDistributionAnomalies (RF : RealFuns) (counts : List ℚ) : List String :=
  let total := counts.sum
  if total = 0 then []
  else
    let proportions := counts.map fun c => c / total
    let uniformity :=
      if proportions.length > 1 then sampleStdev RF proportions else 0
    let a1 := if uniformity < 1/20 then ["Unnaturally uniform rating distribution"] else []
    let a2 :=
      if counts.getD 2 0 < counts.getD 0 0 * (1/2) ∧
         counts.getD 2 0 < counts.getD 4 0 * (1/2) then
        ["Bimodal distribution suggests manipulation"]
      else []
    let a3 :=
      if counts.getD 4 0 > total * (7/10) then ["Excessive 5-star ratings"] else []
    a1 ++ a2 ++ a3

/-- `TrustVerifier._calculate_confidence`. -/
def calculateConfidence (RF : RealFuns) (anomalies : List String)
    (data : ReviewStats) : ℚ :=
  let c1 := (8/10 : ℚ) * (9/10 : ℚ) ^ anomalies.length
  let c2 :=
    match data.verified_ratio with
    | some vr => c1 * (7/10 + 3/10 * vr)
    | none => c1
  let c3 :=
    match data.total_reviews with
    | some n => c2 * (8/10 + 2/10 * min 1 (RF.log (n + 1) / RF.log 1000))
    | none => c2
  min 1 (max (1/10) c3)

/-! ## Enrichment providers and orchestrator (`providers.py`) -/

/-- The payload dictionary of a piece of provider evidence.  The orchestrator
inspects the keys `avg_rating` and `count_total` (anomaly detection) and
writes the key `anomaly_detected`; further payload entries are irrelevant to
every claim and are not modelled. -/
structure EvData where
  avg_rating : Option ℚ := none
  count_total : Option ℚ := none
  anomaly_detected : Bool := false
deriving DecidableEq, Repr

/-- `ProviderEvidence` of `providers.py`.  `retrieved_at` is a naive-UTC
timestamp measured in hours, so that `validate_freshness` can compare the
age against `ttl_hours` directly. -/
structure ProviderEvidence where
  source : String
  entity : String
  source_id : String
  retrieved_at : ℚ
  evidence_url : String
  data : EvData
  signature : Option String := none
  ttl_hours : ℚ := 168
deriving DecidableEq, Repr

/-- `ProviderEvidence.compute_hash`: the SHA-256 digest of the canonical JSON
form of `data`.  The digest is opaque to every claim; it is modelled by the
canonical serialization itself (which, like a collision-free hash, is
injective on payloads). -/
def ProviderEvidence.computeHash (e : ProviderEvidence) : String :=
  "sha256:" ++ reprStr e.data

/-- `BaseProvider.validate_freshness`: the evidence is fresh while its age is
strictly below its TTL. -/
def validateFreshness (now : ℚ) (e : ProviderEvidence) : Bool :=
  decide (now - e.retrieved_at < e.ttl_hours)

/-- `BaseProvider.detect_anomaly`: flag a rating jump above 1.5 stars or a
`count_total` growth rate above 10 relative to the last historical record. -/
def detectAnomaly (newData : EvData) (historical : List EvData) : Bool :=
  if historical.isEmpty then false
  else
    let ratingFlag :=
      match newData.avg_rating, historical.getLast? with
      | some r, some h => decide (|r - h.avg_rating.getD 0| > 3/2)
      | _, _ => false
    let countFlag :=
      match newData.count_total, historical.getLast? with
      | some c, some h =>
          let lastCount := h.count_total.getD 0
          decide (0 < lastCount) && decide ((c - lastCount) / lastCount > 10)
      | _, _ => false
    ratingFlag || countFlag

/-- The outcome of an adapter fetch: `unsupported` models
`NotImplementedError` (silently skipped by the orchestrator), `failure` any
other exception (logged and skipped). -/
inductive FetchErr
  | unsupported
  | failure (msg : String)
deriving DecidableEq

/-- A provider adapter: its `provider_type.value` string and its two fetch
operations.  The concrete adapters in `providers.py` stub their HTTP calls
with fixed example payloads, so the fetch behaviour is a parameter of the
model. -/
structure Provider where
  ptype : String
  fetchBrand : String → Except FetchErr ProviderEvidence
  fetchProduct : String → Except FetchErr ProviderEvidence

/-- Association-list lookup (first match), modelling Python dict indexing. -/
def alistGet {α : Type} (l : List (String × α)) (k : String) : Option α :=
  (l.find? fun p => p.1 == k).map Prod.snd

/-- Association-list update modelling Python dict assignment: an existing key
keeps its position, a new key is appended. -/
def alistSet {α : Type} : List (String × α) → String → α → List (String × α)
  | [], k, v => [(k, v)]
  | (k', v') :: rest, k, v =>
      if k' == k then (k, v) :: rest else (k', v') :: alistSet rest k v

/-- `EnrichmentOrchestrator` state: the provider registry (`self.providers`,
keyed by provider type) and the evidence cache (`self.cache`). -/
structure Orchestrator where
  registry : List (String × Provider) := []
  cache : List (String × ProviderEvidence) := []

/-- Cache key for a brand enrichment.  Python formats the enum member into
the key and the enum's `.value` into the result map; both are injective
images of the provider type and are modelled by the same string. -/
def brandKey (ptype domain : String) : String := ptype ++ ":brand:" ++ domain

/-- Cache key for a product enrichment. -/
def productKey (ptype productId : String) : String := ptype ++ ":product:" ++ productId

/-- One iteration of the provider loop of `enrich_brand`: cache check,
fetch, anomaly detection with TTL override, cache store, result store.
`hist` is the external historical store behind `_get_historical` (stubbed to
an empty list in the source, with persistent storage marked as the
production behaviour). -/
def processBrandProvider (hist : String → List EvData) (now : ℚ) (domain : String)
    (acc : Orchestrator × List (String × ProviderEvidence)) (ptype : String) :
    Orchestrator × List (String × ProviderEvidence) :=
  match alistGet acc.1.registry ptype with
  | none => acc
  | some prov =>
    let key := brandKey ptype domain
    let cachedFresh : Option ProviderEvidence :=
      match alistGet acc.1.cache key with
      | some ev => if validateFreshness now ev then some ev else none
      | none => none
    match cachedFresh with
    | some ev => (acc.1, alistSet acc.2 ptype ev)
    | none =>
      match prov.fetchBrand domain with
      | .error _ => acc
      | .ok ev =>
        let historical := hist key
        let ev' :=
          if detectAnomaly ev.data historical then
            { ev with data := { ev.data with anomaly_detected := true }, ttl_hours := 1 }
          else ev
        ({ acc.1 with cache := alistSet acc.1.cache key ev' }, alistSet acc.2 ptype ev')

/-- `EnrichmentOrchestrator.enrich_brand`.  When `providers` is not given,
all registered providers are used, in registry order. -/
def enrichBrand (hist : String → List EvData) (now : ℚ) (st : Orchestrator)
    (domain : String) (provs : Option (List String)) :
    Orchestrator × List (String × ProviderEvidence) :=
  (provs.getD (st.registry.map Prod.fst)).foldl
    (processBrandProvider hist now domain) (st, [])

/-- One iteration of the provider loop of `enrich_product`: cache check,
fetch, cache store, result store.  Unlike the brand path, the source runs no
anomaly detection here. -/
def processProductProvider (now : ℚ) (productId : String)
    (acc : Orchestrator × List (String × ProviderEvidence)) (ptype : String) :
    Orchestrator × List (String × ProviderEvidence) :=
  match alistGet acc.1.registry ptype with
  | none => acc
  | some prov =>
    let key := productKey ptype productId
    let cachedFresh : Option ProviderEvidence :=
      match alistGet acc.1.cache key with
      | some ev => if validateFreshness now ev then some ev else none
      | none => none
    match cachedFresh with
    | some ev => (acc.1, alistSet acc.2 ptype ev)
    | none =>
      match prov.fetchProduct productId with
      | .error _ => acc
      | .ok ev =>
        ({ acc.1 with cache := alistSet acc.1.cache key ev }, alistSet acc.2 ptype ev)

/-- `EnrichmentOrchestrator.enrich_product`.  When `providers` is not given,
the source uses `[ProviderType.TRUSTED_SHOPS, ProviderType.GOOGLE_SELLER]`. -/
def enrichProduct (now : ℚ) (st : Orchestrator) (productId : String)
    (provs : Option (List String)) :
    Orchestrator × List (String × ProviderEvidence) :=
  (provs.getD ["trusted_shops", "google_seller_ratings"]).foldl
    (processProductProvider now productId) (st, [])

/-! ## Verifiable credentials -/

/-- The `proof` envelope of a verifiable credential. -/
structure VCProof where
  type : String
  created : Option DateStr := none
  verificationMethod : String := ""
  proofPurpose : String := ""
  jws : Option String := none
deriving DecidableEq, Repr

/-- The `credentialSubject` of a credential issued for provider evidence. -/
structure VCSubject where
  id : String
  source : String
  entity : String
  data : EvData
  evidence_hash : String
  evidence_url : String
deriving DecidableEq, Repr

/-- A W3C verifiable credential as a dictionary: `Option` fields model key
presence, which `verify_verifiable_credential` checks. -/
structure VCred where
  context : Option (List String) := none
  type : Option (List String) := none
  issuer : Option String := none
  issuanceDate : Option DateStr := none
  expirationDate : Option DateStr := none
  credentialSubject : Option VCSubject := none
  credentialStatus : Option String := none
  proof : Option VCProof := none
deriving DecidableEq, Repr

/-- `EnrichmentOrchestrator.generate_verifiable_credential`: issuance and
expiration dates are `datetime.utcnow().isoformat() + "Z"`, i.e. ISO strings
with a UTC designator. -/
def generateVerifiableCredential (now : ℚ) (evidence : ProviderEvidence)
    (issuerDid : String) : VCred where
  context := some ["https://www.w3.org/2018/credentials/v1",
                   "https://agentic-commerce.org/axp/v0.1/context"]
  type := some ["VerifiableCredential", "ThirdPartyEvidence"]
  issuer := some issuerDid
  issuanceDate := some ⟨now, true⟩
  expirationDate := some ⟨now + evidence.ttl_hours, true⟩
  credentialSubject := some ⟨evidence.source_id, evidence.source, evidence.entity,
    evidence.data, evidence.computeHash, evidence.evidence_url⟩
  credentialStatus := none
  proof := some ⟨"Ed25519Signature2020", some ⟨now, true⟩,
    issuerDid ++ "#key-1", "assertionMethod", none⟩

/-! ## Trust verifier: verification operations -/

/-- Verification methods of `trust_verifier.py`. -/
inductive VerificationMethod
  | api
  | snapshot
  | attested
  | vc
  | webhook
  | signedFile
deriving DecidableEq, Repr

/-- `VerificationResult`.  `raw_data` echoes the verified payload; it is
modelled by the payload's canonical serialization and no claim inspects it. -/
structure VerificationResult where
  method : VerificationMethod
  confidence : ℚ
  last_checked : PyDateTime
  source_signature : Option String
  snapshot_hash : Option String
  anomalies : List String
  raw_data : Option String
deriving DecidableEq, Repr

/-- The trusted review APIs of `TrustVerifier.__init__`. -/
def trustedApis : List String := ["trustpilot", "google", "tripadvisor", "bbb", "capterra"]

/-- `TrustVerifier._hash_snapshot`, with the SHA-256 digest modelled by the
canonical serialization (opaque to every claim). -/
def hashSnapshot (d : ReviewStats) : String := "sha256:" ++ reprStr d

/-- `TrustVerifier._generate_api_signature` (digest modelled as for
`hashSnapshot`). -/
def generateApiSignature (d : ReviewStats) : String := "sig:" ++ reprStr d

/-- The snapshot fallback of `verify_review_source` (lines 115-141),
entered with whatever anomalies the failed API attempt accumulated.
`snapData` is the externally fetched snapshot payload behind
`_fetch_snapshot`. -/
def snapshotVerify (RF : RealFuns) (nowT : ℚ) (snapData expected : ReviewStats)
    (anoms0 : List String) : Except String VerificationResult := do
  let snapshotHash := hashSnapshot snapData
  let a1 ← detectReviewAnomalies snapData expected
  let a2 := match snapData.history with
    | some h => detectTimeAnomalies RF h
    | none => []
  let a3 := match snapData.rating_distribution with
    | some d => detectDistributionAnomalies RF d
    | none => []
  let anomalies := anoms0 ++ a1 ++ a2 ++ a3
  let confidence := calculateConfidence RF anomalies snapData
  pure ⟨.snapshot, confidence, ⟨nowT, false⟩, none, some snapshotHash, anomalies,
    some (reprStr snapData)⟩

/-- `TrustVerifier.verify_review_source`.  `apiData` and `snapData` are the
externally fetched payloads behind `_fetch_via_api` and `_fetch_snapshot`
(stubbed with fixed examples in the source).  The `try` block covers the API
fetch, the comparison and the early return; any exception inside it is
caught, recorded as an anomaly, and the snapshot fallback runs. -/
def verifyReviewSource (RF : RealFuns) (nowT : ℚ) (apiData snapData : ReviewStats)
    (source _businessId : String) (expected : ReviewStats) :
    Except String VerificationResult :=
  if strToLower source ∈ trustedApis then
    match (do
        let anoms ← detectReviewAnomalies apiData expected
        let signature := generateApiSignature apiData
        pure (VerificationResult.mk .api (if anoms.length = 0 then 95/100 else 7/10)
          ⟨nowT, false⟩ (some signature) none anoms (some (reprStr apiData)))
      : Except String VerificationResult) with
    | .ok r => .ok r
    | .error e =>
        snapshotVerify RF nowT snapData expected ["API verification failed: " ++ e]
  else
    snapshotVerify RF nowT snapData expected []

/-- Details returned by the typed certification validators (all stubs that
accept). -/
structure CertDetails where
  signature : Option String := none
  valid_until : Option String := none
  score : Option ℚ := none
deriving DecidableEq, Repr

/-- The typed certification validators of `TrustVerifier.__init__`
 (`_validate_iso_cert` and friends; all return `(True, details)`). -/
def certValidators : List (String × (String → String → Bool × CertDetails)) :=
  [("iso", fun _ _ => (true, { signature := some "iso_sig_123", valid_until := some "2026-01-01" })),
   ("organic", fun _ _ => (true, { signature := some "organic_sig_456", valid_until := some "2025-12-31" })),
   ("fairtrade", fun _ _ => (true, { signature := some "ft_sig_789", valid_until := some "2025-06-30" })),
   ("bcorp", fun _ _ => (true, { signature := some "bcorp_sig_012", score := some (171/2) }))]

/-- Certification data fetched for the generic verification path
(`_fetch_certification_data` is a stub; the payload is a model parameter).
The stub's `expiry_date` is the string `2026-01-01T00:00:00Z`, i.e. it
carries a UTC designator. -/
structure CertData where
  cert_type : String
  cert_id : String
  issuer : String
  expiry_date : Option DateStr := none
  status : Option String := none
deriving DecidableEq, Repr

/-- `TrustVerifier._check_revocation` (stub returning `False`). -/
def checkRevocation (_certType _certId : String) : Bool := false

/-- `TrustVerifier.verify_certification`.  The generic path parses
`cert_data['expiry_date']` with `datetime.fromisoformat` and compares against
naive `datetime.now()`; a designator-carrying expiry string therefore raises
`TypeError` (and on Python before 3.11 the parse itself raises
`ValueError`). -/
def verifyCertification (nowT : ℚ) (certType certId issuer : String)
    (certData : CertData) : Except String VerificationResult :=
  match alistGet certValidators (strToLower certType) with
  | some validator =>
    let r := validator certId issuer
    let anomalies := if r.1 then [] else ["Certification validation failed"]
    .ok ⟨.api, if r.1 then 95/100 else 2/10, ⟨nowT, false⟩, r.2.signature, none,
      anomalies, some (reprStr r.2)⟩
  | none => do
    let a1 ← match certData.expiry_date with
      | some ds => do
          let lt ← pyLtDT (parseIso ds) ⟨nowT, false⟩
          pure (if lt then ["Certification expired"] else [])
      | none => pure []
    let a2 := if checkRevocation certType certId then ["Certification revoked"] else []
    let anomalies := a1 ++ a2
    pure ⟨.snapshot, if anomalies.length = 0 then 7/10 else 3/10, ⟨nowT, false⟩,
      none, some ("sha256:" ++ reprStr certData), anomalies, some (reprStr certData)⟩

/-- `TrustVerifier._verify_vc_proof` (stub: checks that the key `proof` is
present). -/
def verifyVcProof (vc : VCred) : Bool := vc.proof.isSome

/-- `TrustVerifier._check_vc_revocation` (stub returning `False`). -/
def checkVcRevocation (_status : String) : Bool := false

/-- The trust registry of `TrustVerifier._verify_issuer`. -/
def trustedIssuers : List String :=
  ["did:web:example.com", "did:key:z6MkhaXgBZD", "https://issuer.example.com"]

/-- `TrustVerifier._verify_issuer`. -/
def verifyIssuer (issuer : String) : Bool := decide (issuer ∈ trustedIssuers)

/-- The confidence assigned by `verify_verifiable_credential` past the
structural check: `0.95` with no anomalies, else `max(0.2, 0.95 - 0.2·n)`. -/
def vcConfidence (n : ℕ) : ℚ :=
  if n = 0 then 95/100 else max (2/10) (95/100 - n * (2/10))

/-- The list of required top-level fields a credential must carry. -/
def vcMissingFields (vc : VCred) : List String :=
  (if vc.context.isNone then ["Missing required field: @context"] else []) ++
  (if vc.type.isNone then ["Missing required field: type"] else []) ++
  (if vc.issuer.isNone then ["Missing required field: issuer"] else []) ++
  (if vc.issuanceDate.isNone then ["Missing required field: issuanceDate"] else []) ++
  (if vc.credentialSubject.isNone then ["Missing required field: credentialSubject"] else []) ++
  (if vc.proof.isNone then ["Missing required field: proof"] else [])

/-- `TrustVerifier.verify_verifiable_credential`.  The expiration check
parses `expirationDate` after `.replace("Z", "+00:00")` — producing an
offset-aware datetime whenever the string carries a designator — and
compares it against naive `datetime.now()`. -/
def verifyVerifiableCredential (nowT : ℚ) (vc : VCred) :
    Except String VerificationResult :=
  let missing := vcMissingFields vc
  if missing.isEmpty then do
    let a1 := if verifyVcProof vc then [] else ["Proof verification failed"]
    let a2 ← match vc.expirationDate with
      | some ds => do
          let lt ← pyLtDT (parseIso ds) ⟨nowT, false⟩
          pure (if lt then ["Credential expired"] else [])
      | none => pure []
    let a3 := match vc.credentialStatus with
      | some st => if checkVcRevocation st then ["Credential revoked"] else []
      | none => []
    let a4 := if verifyIssuer (vc.issuer.getD "") then [] else ["Issuer not in trust registry"]
    let anomalies := a1 ++ a2 ++ a3 ++ a4
    pure ⟨.vc, vcConfidence anomalies.length, ⟨nowT, false⟩, vc.proof.bind VCProof.jws, none, anomalies,
      some (reprStr vc)⟩
  else
    .ok ⟨.vc, 1/10, ⟨nowT, false⟩, none, none, missing, some (reprStr vc)⟩

/-! ## Domain age -/

/-- `DomainAgeResult` of `trust_verifier.py`.  Dates are whole days on the
model timeline. -/
structure DomainAgeResult where
  domain : String
  earliest_date : ℤ
  age_days : ℤ
  age_score : ℚ
  confidence : ℚ
  sources : List String
deriving DecidableEq, Repr

/-- One source step of `calculate_domain_age`: a successful date is adopted
(and the source recorded) exactly when there is no current earliest date or
the candidate is strictly earlier. -/
def domainAgeStep (cur : Option ℤ × List String) (cand : Option ℤ) (name : String) :
    Option ℤ × List String :=
  match cand with
  | none => cur
  | some d =>
    match cur.1 with
    | none => (some d, cur.2 ++ [name])
    | some e => if d < e then (some d, cur.2 ++ [name]) else cur

/-- `TrustVerifier.calculate_domain_age`.  The four lookups (WHOIS,
certificate transparency, DNS history, web archive) are external queries
stubbed in the source; each argument is `some date` when the query succeeded
with a date and `none` when it failed or returned nothing. -/
def calculateDomainAge (RF : RealFuns) (nowDays : ℤ) (domain : String)
    (whoisR ctR dnsR archR : Option ℤ) : DomainAgeResult :=
  let s1 := domainAgeStep (none, []) whoisR "whois"
  let s2 := domainAgeStep s1 ctR "certificate_transparency"
  let s3 := domainAgeStep s2 dnsR "dns_history"
  let s4 := domainAgeStep s3 archR "internet_archive"
  match s4.1 with
  | some d =>
    let ageDays := nowDays - d
    let rawScore := 1 - RF.exp (-(ageDays : ℚ) / 365)
    ⟨domain, d, ageDays, min rawScore (6/10), min 1 ((s4.2.length : ℚ) / 2), s4.2⟩
  | none => ⟨domain, nowDays, 0, 0, 0, s4.2⟩

/-- The number of external domain-age queries that succeeded with a date
(what claim C4 calls `s`). -/
def succCount (whoisR ctR dnsR archR : Option ℤ) : ℕ :=
  ([whoisR, ctR, dnsR, archR].filter Option.isSome).length

/-- The number of sources `calculate_domain_age` actually records: a source
is counted exactly when its date strictly precedes every date returned by an
earlier-queried successful source (so the first successful source always
counts). -/
def improvingCount (whoisR ctR dnsR archR : Option ℤ) : ℕ :=
  let beats : Option ℤ → List ℤ → Bool := fun cand prior =>
    match cand with
    | none => false
    | some v => prior.all fun p => decide (v < p)
  (if whoisR.isSome then 1 else 0) +
  (if beats ctR whoisR.toList then 1 else 0) +
  (if beats dnsR (whoisR.toList ++ ctR.toList) then 1 else 0) +
  (if beats archR (whoisR.toList ++ ctR.toList ++ dnsR.toList) then 1 else 0)

/-! ## Intent extraction pipeline (`intent_extractor.py`) -/

/-- The closed intent taxonomy (`IntentType`), in declaration order. -/
def intentTaxonomy : List String :=
  ["gift", "daily_commute", "hobby", "professional_use", "travel", "fashion",
   "sport", "basketball", "running", "outdoor", "luxury", "value"]

/-- Month and day of a parsed `created_at` timestamp (the only parts
`_is_holiday_season` reads). -/
structure PyDate where
  month : ℕ
  day : ℕ
deriving DecidableEq, Repr

/-- One entry of an order's `items` list. -/
structure OrderItem where
  category : String := ""
deriving DecidableEq, Repr

/-- An order record (section 6 of the specification: `created_at` is a
mandatory ISO-8601 timestamp, modelled already parsed). -/
structure Order where
  created_at : PyDate
  gift_wrap : Bool := false
  gift_message : Option String := none
  items : Option (List OrderItem) := none
deriving DecidableEq, Repr

/-- A return record. -/
structure ReturnRec where
  reason : String := ""
deriving DecidableEq, Repr

/-- A behavioural event record (`type` is mandatory). -/
structure Event where
  type : String
  guide_type : Option String := none
deriving DecidableEq, Repr

/-- A text record (review, Q&A, support ticket). -/
structure TextItem where
  text : String := ""
  verified_purchase : Bool := false
  source : String := "review"
  intent_probs : Option (List (String × ℚ)) := none
deriving DecidableEq, Repr

/-- An acquisition record. -/
structure Acquisition where
  utm_campaign : String := ""
  utm_source : String := ""
  utm_term : String := ""
  landing_page : String := ""
deriving DecidableEq, Repr

/-- The `data_sources` dictionary passed to `compute_intent_signals`:
`Option` models key presence (`_compute_confidence` tests `source in
data_sources`, the extractors use `.get(key, [])`). -/
structure DataSources where
  orders : Option (List Order) := none
  returns : Option (List ReturnRec) := none
  events : Option (List Event) := none
  texts : Option (List TextItem) := none
  acquisitions : Option (List Acquisition) := none

/-- `IntentSignal`.  The Python `method` string interpolates the weight
dictionary repr and the `evidence` entries format contributions to two
decimals; the model keeps the structure (which sources appear, in which
order) and the raw contribution values, which is all any claim reads. -/
structure IntentSignal where
  intent : String
  share : ℚ
  confidence : ℚ
  method : String
  evidence : List String
  last_updated : ℤ
deriving DecidableEq, Repr

/-- `IntentExtractor` construction parameters. -/
structure IntentExtractor where
  text_weight : ℚ := 4/10
  behavior_weight : ℚ := 25/100
  cart_weight : ℚ := 25/100
  channel_weight : ℚ := 1/10
  recency_half_life_days : ℚ := 90
  dirichlet_alpha : ℚ := 1/2
deriving DecidableEq, Repr

/-- The default `IntentExtractor()`. -/
def exDefault : IntentExtractor := {}

/-- `defaultdict(float)` accumulation: add `v` to the entry at `k`, keeping
dictionary insertion order (a new key is appended). -/
def dAdd : List (String × ℚ) → String → ℚ → List (String × ℚ)
  | [], k, v => [(k, v)]
  | (k2, v2) :: rest, k, v =>
      if k2 = k then (k2, v2 + v) :: rest else (k2, v2) :: dAdd rest k v

/-- Dictionary read with default 0 (`d.get(k, 0)`). -/
def dGetD (d : List (String × ℚ)) (k : String) : ℚ := (alistGet d k).getD 0

/-- Dictionary key-membership test (`k in d`). -/
def dHas (d : List (String × ℚ)) (k : String) : Bool := (alistGet d k).isSome

/-- The keys of a score dictionary, in insertion order. -/
def dKeys (d : List (String × ℚ)) : List String := d.map Prod.fst

/-- Whether the character list starting here begins with the pattern. -/
def charsStartWith : List Char → List Char → Bool
  | _, [] => true
  | [], _ :: _ => false
  | c :: cs, p :: ps => c == p && charsStartWith cs ps

/-- Whether the pattern occurs as a contiguous run of the character list. -/
def charsContain : List Char → List Char → Bool
  | [], p => p.isEmpty
  | c :: cs, p => charsStartWith (c :: cs) p || charsContain cs p

/-- Python's `needle in haystack` on strings (substring containment). -/
def strContains (hay needle : String) : Bool := charsContain hay.data needle.data

/-- Python tuple `<=` on `(month, day)` pairs (lexicographic). -/
def tupLe (a b : ℕ × ℕ) : Bool :=
  decide (a.1 < b.1) || (a.1 == b.1 && decide (a.2 ≤ b.2))

/-- `IntentExtractor._is_holiday_season`. -/
def isHolidaySeason (d : PyDate) : Bool :=
  let md := (d.month, d.day)
  (tupLe (11, 15) md && tupLe md (12, 31)) ||
  (tupLe (2, 1) md && tupLe md (2, 14)) ||
  (tupLe (5, 1) md && tupLe md (5, 31)) ||
  (tupLe (6, 1) md && tupLe md (6, 20))

/-- `IntentExtractor._analyze_bundle`. -/
def analyzeBundle (items : List OrderItem) : List (String × ℚ) :=
  let categories := items.map OrderItem.category
  let d1 : List (String × ℚ) := []
  let d2 :=
    if "running_shoes" ∈ categories ∧ "running_socks" ∈ categories then
      dAdd (dAdd d1 "running" (8/10)) "sport" (5/10)
    else d1
  if "dress_shoes" ∈ categories ∧ "dress_shirt" ∈ categories then
    dAdd d2 "professional_use" (7/10)
  else d2

/-- Truthiness of `order.get('gift_message')`: present and non-empty. -/
def giftMessageTruthy : Option String → Bool
  | none => false
  | some s => !(s == "")

/-- `IntentExtractor.extract_from_orders`. -/
def extractFromOrders (_productId : String) (orders : List Order) :
    List (String × ℚ) :=
  if orders.length = 0 then []
  else
    let scores := orders.foldl (fun d order =>
      let d1 := if order.gift_wrap || giftMessageTruthy order.gift_message then
          dAdd d "gift" 1
        else d
      let d2 := if isHolidaySeason order.created_at then dAdd d1 "gift" (3/10) else d1
      match order.items with
      | some items => (analyzeBundle items).foldl (fun dd p => dAdd dd p.1 p.2) d2
      | none => d2) []
    scores.map fun p => (p.1, p.2 / (orders.length : ℚ))

/-- `IntentExtractor.extract_from_returns`. -/
def extractFromReturns (_productId : String) (returns : List ReturnRec) :
    List (String × ℚ) :=
  returns.foldl (fun d r =>
    if r.reason == "size_issue" then dAdd (dAdd d "fashion" (1/10)) "sport" (1/10)
    else if r.reason == "quality_expectation" then dAdd d "professional_use" (2/10)
    else if r.reason == "changed_mind" then dAdd d "fashion" (15/100)
    else d) []

/-- `IntentExtractor.extract_from_behavior`.  The final damping divides by
`math.sqrt(total_events)` where `total_events` is the number of events. -/
def extractFromBehavior (RF : RealFuns) (_productId : String) (events : List Event) :
    List (String × ℚ) :=
  let scores := events.foldl (fun d e =>
    if e.type == "view_size_guide" then dAdd (dAdd d "fashion" (3/10)) "sport" (2/10)
    else if e.type == "view_3d" then dAdd (dAdd d "fashion" (2/10)) "luxury" (1/10)
    else if e.type == "use_configurator" then
      dAdd (dAdd d "professional_use" (3/10)) "hobby" (2/10)
    else if e.type == "compare_products" then dAdd d "value" (2/10)
    else if e.type == "read_guide" then
      match e.guide_type with
      | some g =>
        if strContains (strToLower g) "running" then dAdd d "running" (5/10)
        else if strContains (strToLower g) "basketball" then dAdd d "basketball" (5/10)
        else d
      | none => d
    else d) []
  if events.length > 0 then
    scores.map fun p => (p.1, p.2 / RF.sqrt (events.length : ℚ))
  else scores

/-- `IntentExtractor._get_text_weight`. -/
def textWeight (t : TextItem) : ℚ :=
  let b1 : ℚ := 1
  let b2 := if t.verified_purchase then b1 * (3/2) else b1
  if t.source == "support_ticket" then b2 * (8/10)
  else if t.source == "q_and_a" then b2 * (11/10)
  else b2

/-- The keyword table of `extract_from_text`, in dictionary order. -/
def intentKeywords : List (String × List String) :=
  [("gift", ["gift", "present", "birthday", "christmas", "anniversary"]),
   ("sport", ["running", "training", "workout", "gym", "athletic"]),
   ("professional_use", ["work", "professional", "office", "business", "daily"]),
   ("travel", ["travel", "trip", "vacation", "flight", "luggage"]),
   ("fashion", ["style", "look", "outfit", "trendy", "fashion"]),
   ("daily_commute", ["commute", "daily", "everyday", "walking", "comfortable"])]

/-- Add one text item's `intent_probs` entries, weighted. -/
def addProbs (w : ℚ) (d : List (String × ℚ)) : List (String × ℚ) → List (String × ℚ)
  | [] => d
  | p :: ps => addProbs w (dAdd d p.1 (p.2 * w)) ps

/-- The zero-shot pass of `extract_from_text`: once entered (the first item
carries `intent_probs`), Python indexes `text_item['intent_probs']` on every
item and raises `KeyError` on one that lacks it. -/
def textProbsPass : List TextItem → List (String × ℚ) →
    Except String (List (String × ℚ))
  | [], d => pure d
  | t :: ts, d =>
    match t.intent_probs with
    | some probs => textProbsPass ts (addProbs (textWeight t) d probs)
    | none => .error "KeyError: intent_probs"

/-- `IntentExtractor.extract_from_text`. -/
def extractFromText (_productId : String) (texts : List TextItem) :
    Except String (List (String × ℚ)) := do
  let scores := texts.foldl (fun d t =>
    let content := strToLower t.text
    let w := textWeight t
    intentKeywords.foldl (fun dd kw =>
      let nMatches := (kw.2.filter fun k => strContains content k).length
      if nMatches > 0 then dAdd dd kw.1 ((nMatches : ℚ) * w) else dd) d) []
  let scores2 ←
    match texts with
    | [] => pure scores
    | t0 :: _ =>
      if t0.intent_probs.isSome then textProbsPass texts scores else pure scores
  let totalWeight := (texts.map textWeight).sum
  if totalWeight > 0 then pure (scores2.map fun p => (p.1, p.2 / totalWeight))
  else pure scores2

/-- Python `s.replace('_', ' ')` for the single-character pattern used on
taxonomy values. -/
def underscoreToSpace (s : String) : String :=
  ⟨s.data.map fun c => if c == '_' then ' ' else c⟩

/-- `IntentExtractor.extract_from_channel`. -/
def extractFromChannel (_productId : String) (acquisitions : List Acquisition) :
    List (String × ℚ) :=
  let scores := acquisitions.foldl (fun d acq =>
    let campaign := strToLower acq.utm_campaign
    let term := strToLower acq.utm_term
    let d1 :=
      if strContains campaign "gift" || strContains campaign "holiday" then
        dAdd d "gift" 1
      else if strContains campaign "sport" || strContains campaign "athletic" then
        dAdd d "sport" 1
      else if strContains campaign "professional" || strContains campaign "business" then
        dAdd d "professional_use" 1
      else d
    if !(term == "") then
      intentTaxonomy.foldl (fun dd it =>
        if strContains term (underscoreToSpace it) then dAdd dd it (1/2) else dd) d1
    else d1) []
  if acquisitions.length > 0 then
    scores.map fun p => (p.1, p.2 / (acquisitions.length : ℚ))
  else scores

/-- `IntentExtractor._compute_time_weight`. -/
def computeTimeWeight (RF : RealFuns) (ex : IntentExtractor) (daysAgo : ℚ) : ℚ :=
  RF.exp (-daysAgo / ex.recency_half_life_days)

/-- First smoothing stage of `_dirichlet_smooth`: each mixed score becomes
`(score·100 + α) / denom`. -/
def smoothScores (alpha denom : ℚ) : List (String × ℚ) →
    Except String (List (String × ℚ))
  | [] => pure []
  | p :: ps => do
    let v ← pyDiv (p.2 * 100 + alpha) denom
    let rest ← smoothScores alpha denom ps
    pure ((p.1, v) :: rest)

/-- Second stage: every taxonomy intent still missing receives `α / denom`. -/
def addUnseen (alpha denom : ℚ) (acc : List (String × ℚ)) : List String →
    Except String (List (String × ℚ))
  | [] => pure acc
  | it :: rest =>
    if (alistGet acc it).isSome then addUnseen alpha denom acc rest
    else do
      let v ← pyDiv alpha denom
      addUnseen alpha denom (acc ++ [(it, v)]) rest

/-- Final renormalization: divide every entry by the current sum. -/
def divideAll (denom : ℚ) : List (String × ℚ) → Except String (List (String × ℚ))
  | [] => pure []
  | p :: ps => do
    let v ← pyDiv p.2 denom
    let rest ← divideAll denom ps
    pure ((p.1, v) :: rest)

/-- `IntentExtractor._dirichlet_smooth`. -/
def dirichletSmooth (alpha : ℚ) (scores : List (String × ℚ)) (numClasses : ℕ) :
    Except String (List (String × ℚ)) := do
  let total := (scores.map Prod.snd).sum
  let denom := total * 100 + (numClasses : ℚ) * alpha
  let smoothed ← smoothScores alpha denom scores
  let smoothed2 ← addUnseen alpha denom smoothed intentTaxonomy
  let totalSmoothed := (smoothed2.map Prod.snd).sum
  divideAll totalSmoothed smoothed2

/-- One source's contribution to `_compute_confidence`: weight times
`min(1, log(n+1)/log(100))` when the source key is present with records. -/
def confContrib (RF : RealFuns) (w : ℚ) (n : ℕ) (present : Bool) : ℚ :=
  if present ∧ n > 0 then w * min 1 (RF.log ((n : ℚ) + 1) / RF.log 100) else 0

/-- `IntentExtractor._compute_confidence`. -/
def computeConfidence (RF : RealFuns) (ds : DataSources) : ℚ :=
  min 1
    (confContrib RF (3/10) (ds.orders.getD []).length ds.orders.isSome +
     confContrib RF (2/10) (ds.events.getD []).length ds.events.isSome +
     confContrib RF (3/10) (ds.texts.getD []).length ds.texts.isSome +
     confContrib RF (1/10) (ds.returns.getD []).length ds.returns.isSome +
     confContrib RF (1/10) (ds.acquisitions.getD []).length ds.acquisitions.isSome)

/-- Stable insertion into a share-descending list (Python's stable
`list.sort(key=share, reverse=True)`). -/
def sigInsert (s : IntentSignal) : List IntentSignal → List IntentSignal
  | [] => [s]
  | t :: ts => if s.share ≥ t.share then s :: t :: ts else t :: sigInsert s ts

/-- Stable descending-by-share sort. -/
def sigSortDesc (l : List IntentSignal) : List IntentSignal := l.foldr sigInsert []

/-- Keep-first deduplication, modelling the key union
`set().update(...keys...)` (Python set iteration order is arbitrary; the
claims are order-insensitive, and the model fixes first-occurrence order). -/
def dedupAux (seen : List String) : List String → List String
  | [] => []
  | k :: rest =>
    if k ∈ seen then dedupAux seen rest else k :: dedupAux (k :: seen) rest

/-- Deduplicated key union. -/
def dedupFirst (l : List String) : List String := dedupAux [] l

/-- `IntentExtractor.compute_intent_signals`. -/
def computeIntentSignals (RF : RealFuns) (ex : IntentExtractor) (now : ℤ)
    (productId : String) (ds : DataSources) (sinceDays : ℚ) :
    Except String (List IntentSignal) := do
  let orderIntents := extractFromOrders productId (ds.orders.getD [])
  let returnIntents := extractFromReturns productId (ds.returns.getD [])
  let behaviorIntents := extractFromBehavior RF productId (ds.events.getD [])
  let textIntents ← extractFromText productId (ds.texts.getD [])
  let channelIntents := extractFromChannel productId (ds.acquisitions.getD [])
  let allIntents := dedupFirst ((((dKeys orderIntents ++ dKeys returnIntents) ++
    dKeys behaviorIntents) ++ dKeys textIntents) ++ dKeys channelIntents)
  let mixedScores := allIntents.map fun intent =>
    (intent,
      (ex.cart_weight * dGetD orderIntents intent +
       ex.cart_weight * dGetD returnIntents intent * (1/2) +
       ex.behavior_weight * dGetD behaviorIntents intent +
       ex.text_weight * dGetD textIntents intent +
       ex.channel_weight * dGetD channelIntents intent) *
        computeTimeWeight RF ex sinceDays)
  let smoothed ← dirichletSmooth ex.dirichlet_alpha mixedScores intentTaxonomy.length
  let signals := smoothed.map fun p =>
    IntentSignal.mk p.1 p.2 (computeConfidence RF ds) "mixed_weights"
      ((if dHas orderIntents p.1 then ["orders:" ++ toString (dGetD orderIntents p.1)] else []) ++
       (if dHas textIntents p.1 then ["text:" ++ toString (dGetD textIntents p.1)] else []) ++
       (if dHas behaviorIntents p.1 then
         ["behavior:" ++ toString (dGetD behaviorIntents p.1)] else []))
      now
  pure (sigSortDesc signals)

/-- The keys occurring in any text item's `intent_probs` map. -/
def textProbKeys (texts : List TextItem) : List String :=
  texts.foldr (fun t acc =>
    (match t.intent_probs with
     | some probs => probs.map Prod.fst
     | none => []) ++ acc) []

/-! ## Concrete instances used by counterexamples and witnesses -/

/-- The example credential of `trust_verifier.py` (lines 558-571): trusted
issuer, a proof, and no `expirationDate`. -/
def exampleVC : VCred where
  context := some ["https://www.w3.org/2018/credentials/v1"]
  type := some ["VerifiableCredential", "ProductCertification"]
  issuer := some "did:web:example.com"
  issuanceDate := some ⟨0, true⟩
  credentialSubject := some ⟨"sku_123", "", "", {}, "", ""⟩
  proof := some ⟨"JsonWebSignature2020", none, "", "", some "eyJhbGc..."⟩

/-- The fixed product evidence fetched in the C8 counterexample scenario:
`count_total` is twenty times the historical value, TTL 24 hours, no anomaly
flag. -/
def c8Evidence : ProviderEvidence where
  source := "google_seller_ratings"
  entity := "product"
  source_id := "google:product:sku_1"
  retrieved_at := 0
  evidence_url := "https://www.google.com/shopping/product/sku_1"
  data := { count_total := some 2000 }
  ttl_hours := 24

/-- A product-scope provider whose fetch returns `c8Evidence`. -/
def c8Provider : Provider where
  ptype := "google_seller_ratings"
  fetchBrand := fun _ => .error .unsupported
  fetchProduct := fun _ => .ok c8Evidence

/-- A historical store holding one prior record with `count_total = 100` for
the C8 product key. -/
def c8Hist : String → List EvData := fun k =>
  if k = productKey "google_seller_ratings" "sku_1" then [{ count_total := some 100 }]
  else []

/-- The bundle returned for empty data sources: every taxonomy intent at the
uniform share 1/12, zero confidence. -/
def c3EmptyBundle : List IntentSignal :=
  intentTaxonomy.map fun it => ⟨it, 1/12, 0, "mixed_weights", [], 0⟩

/-- Orchestrator with `c8Provider` registered and a cold cache. -/
def c8Orchestrator : Orchestrator where
  registry := [("google_seller_ratings", c8Provider)]
  cache := []

/-- The detail payload of the stub ISO validator, used by the C9 witness. -/
def isoDetails : CertDetails :=
  { signature := some "iso_sig_123", valid_until := some "2026-01-01" }

/-- A text item whose zero-shot classifier output (`intent_probs`) carries an
intent outside the closed taxonomy. -/
def c5Text : TextItem where
  text := ""
  verified_purchase := false
  source := "review"
  intent_probs := some [("treasure_hunt", 1)]

/-- Data sources holding only the single text item `c5Text`. -/
def c5DS : DataSources := { texts := some [c5Text] }

/-- The bundle returned for `c5DS`: the out-of-taxonomy intent
`treasure_hunt` leads with share 27/31, followed by the twelve taxonomy
intents at 1/93 each. -/
def c5Bundle : List IntentSignal :=
  ⟨"treasure_hunt", 27/31, 3/10, "mixed_weights", ["text:" ++ toString (1 : ℚ)], 0⟩ ::
    (intentTaxonomy.map fun it => ⟨it, 1/93, 3/10, "mixed_weights", [], 0⟩)

/-- A data-source map with the same shape as `c5DS` (texts present, one
record, everything else absent) but different record contents. -/
def c5DS2 : DataSources :=
  { texts := some [{ text := "a great gift", verified_purchase := true,
                     source := "q_and_a", intent_probs := none }] }

/-- Brand-side fetched evidence for the C8 witness: `count_total` twenty
times the historical value. -/
def c8bEvidence : ProviderEvidence where
  source := "trustpilot"
  entity := "brand"
  source_id := "trustpilot:brand:acme.com"
  retrieved_at := 0
  evidence_url := "https://www.trustpilot.com/review/acme.com"
  data := { count_total := some 2000 }
  ttl_hours := 24

/-- A brand-scope provider whose fetch returns `c8bEvidence`. -/
def c8bProvider : Provider where
  ptype := "trustpilot"
  fetchBrand := fun _ => .ok c8bEvidence
  fetchProduct := fun _ => .error .unsupported

/-- A historical store holding one prior record with `count_total = 100` for
the C8 brand key. -/
def c8bHist : String → List EvData := fun k =>
  if k = brandKey "trustpilot" "acme.com" then [{ count_total := some 100 }]
  else []

/-- Orchestrator with `c8bProvider` registered and a cold cache. -/
def c8bOrchestrator : Orchestrator where
  registry := [("trustpilot", c8bProvider)]
  cache := []

/-- `c8bEvidence` after the brand path flags the anomaly. -/
def c8bFlagged : ProviderEvidence :=
  { c8bEvidence with
    data := { c8bEvidence.data with anomaly_detected := true }
    ttl_hours := 1 }

/-! ### KPI calculator (`kpi_calculator.py`)

`product_data` is a dict read only through `.get(key, default)`; it is
modelled as a structure of `Option` fields (`none` = key absent), with
`getD` supplying the Python defaults at each use site.  `datetime.now()`
only enters the `KPIEvidence.timestamp` and `SoftSignals.last_updated`
fields; it is passed in as the parameter `now`.  `math.exp` comes from the
`RealFuns` interpretation.  `round(x, 3)` is modelled as
`round (x*1000) / 1000` (exact half-way floats round half-to-even in
Python; no claim depends on a half-way value). -/

/-- The keys of `product_data` read by the eight calculators. -/
structure ProductData where
  returns_total : Option ℚ := none
  returns_size : Option ℚ := none
  exchanges_size : Option ℚ := none
  purchases_with_advisor : Option ℚ := none
  purchases_total : Option ℚ := none
  reviews_fit_positive : Option ℚ := none
  reviews_with_fit : Option ℚ := none
  rma_count : Option ℚ := none
  claim_count : Option ℚ := none
  units_sold : Option ℚ := none
  avg_days_to_claim : Option ℚ := none
  warranty_claims : Option ℚ := none
  reviews_durability_avg : Option ℚ := none
  category_rma_avg : Option ℚ := none
  energy_return_percent : Option ℚ := none
  weight_grams : Option ℚ := none
  cushioning_index : Option ℚ := none
  stack_height_mm : Option ℚ := none
  benchmark_percentile : Option ℚ := none
  efficiency_rating : Option ℚ := none
  latency_ms : Option ℚ := none
  reviews_performance_avg : Option ℚ := none
  category_performance_avg : Option ℚ := none
  avg_rating : Option ℚ := none
  avg_rating_verified : Option ℚ := none
  review_count_verified : Option ℚ := none
  review_count_total : Option ℚ := none
  csat_product : Option ℚ := none
  csat_responses : Option ℚ := none
  sentiment_90d : Option ℚ := none
  sentiment_prev_90d : Option ℚ := none
  repeat_purchase_rate : Option ℚ := none
  rare_feature_count : Option ℚ := none
  total_feature_count : Option ℚ := none
  is_limited_edition : Option Bool := none
  stock_scarcity_score : Option ℚ := none
  price_percentile_category : Option ℚ := none
  material_grade : Option String := none
  origin_reputation_score : Option ℚ := none
  warranty_days : Option ℚ := none
  review_aspect_quality : Option ℚ := none
  craftsmanship_mention_rate : Option ℚ := none
  sustainability_certifications : Option (List String) := none
  recycled_content_percent : Option ℚ := none
  carbon_footprint_kg : Option ℚ := none
  category_avg_carbon_kg : Option ℚ := none
  sustainable_packaging : Option Bool := none
  supply_chain_transparency : Option ℚ := none
  new_feature_count : Option ℚ := none
  patent_count : Option ℚ := none
  award_count : Option ℚ := none
  press_mention_count : Option ℚ := none
  uses_cutting_edge_tech : Option Bool := none
  tech_generation : Option ℚ := none
  is_first_in_category : Option Bool := none
deriving DecidableEq, Repr

/-- `KPIEvidence`. -/
structure KPIEvidence where
  factor : String
  value : ℚ
  source : String
  confidence : ℚ
  timestamp : ℚ
deriving DecidableEq, Repr

/-- `SoftSignals`. -/
structure SoftSignals where
  fit_hint_score : ℚ
  reliability_score : ℚ
  performance_score : ℚ
  owner_satisfaction_score : ℚ
  uniqueness_score : ℚ
  craftsmanship_score : ℚ
  sustainability_score : ℚ
  innovation_score : ℚ
  evidence : List KPIEvidence
  calculation_method : String
  last_updated : ℚ
deriving DecidableEq, Repr

/-- `KPICalculator._sigmoid` at the default steepness 1 (the only value any
call site uses).  `RealFuns.exp` is total, whereas CPython `math.exp`
raises `OverflowError` for large finite arguments (beyond roughly 709), so
no theorem below asserts that a calculator reaching `_sigmoid` returns: the
C6 statement is conditional on both compared calls returning. -/
def sigmoid (RF : RealFuns) (x : ℚ) : ℚ := 1 / (1 + RF.exp (-x))

/-- Python `round(x, 3)`. -/
def round3 (x : ℚ) : ℚ := ((round (x * 1000) : ℤ) : ℚ) / 1000

/-- `KPICalculator.calculate_fit_hint_score`.  Every denominator passes
through `max(·, 1)`, so this calculator cannot divide by zero. -/
def calculateFitHintScore (RF : RealFuns) (now : ℚ) (pd : ProductData) :
    ℚ × List KPIEvidence :=
  let returns_total := pd.returns_total.getD 0
  let returns_size := pd.returns_size.getD 0
  let exchanges_size := pd.exchanges_size.getD 0
  let purchases_with_advisor := pd.purchases_with_advisor.getD 0
  let purchases_total := max (pd.purchases_total.getD 1) 1
  let reviews_fit_positive := pd.reviews_fit_positive.getD 0
  let reviews_with_fit := max (pd.reviews_with_fit.getD 1) 1
  let return_size_rate := returns_size / max returns_total 1
  let exchange_size_rate := exchanges_size / purchases_total
  let advisor_usage_rate := purchases_with_advisor / purchases_total
  let fit_positive_rate := reviews_fit_positive / reviews_with_fit
  let evidence : List KPIEvidence :=
    [⟨"return_size_rate", return_size_rate, "returns_data", min 1 (returns_total / 10), now⟩,
     ⟨"advisor_usage_rate", advisor_usage_rate, "purchase_behavior",
       min 1 (purchases_total / 50), now⟩,
     ⟨"fit_positive_rate", fit_positive_rate, "review_analysis",
       min 1 (reviews_with_fit / 20), now⟩]
  let raw_score := (-(4/10)) * return_size_rate + (-(2/10)) * exchange_size_rate +
    (2/10) * advisor_usage_rate + (2/10) * fit_positive_rate
  (sigmoid RF (raw_score + 1/2), evidence)

/-- `KPICalculator.calculate_reliability_score`.  `category_rma_avg` comes
straight from the data (default 5.0) and divides twice, so both divisions are
checked. -/
def calculateReliabilityScore (RF : RealFuns) (now : ℚ) (pd : ProductData) :
    Except String (ℚ × List KPIEvidence) := do
  let rma_count := pd.rma_count.getD 0
  let claim_count := pd.claim_count.getD 0
  let units_sold := max (pd.units_sold.getD 1000) 1
  let avg_days_to_claim := pd.avg_days_to_claim.getD 365
  let warranty_claims := pd.warranty_claims.getD 0
  let reviews_durability_avg := pd.reviews_durability_avg.getD (1/2)
  let rma_rate := rma_count / units_sold * 1000
  let claim_rate := claim_count / units_sold * 1000
  let warranty_rate := warranty_claims / units_sold * 1000
  let mtbf_normalized := min 1 (avg_days_to_claim / 730)
  let evidence : List KPIEvidence :=
    [⟨"rma_per_1000", rma_rate, "warranty_system", min 1 (units_sold / 1000), now⟩,
     ⟨"mtbf_days", avg_days_to_claim, "warranty_system",
       if claim_count > 0 then min 1 (claim_count / 10) else 1/10, now⟩]
  let q1 ← pyDiv rma_rate (pd.category_rma_avg.getD 5)
  let rma_rate_normalized := 1 - min 1 q1
  let q2 ← pyDiv claim_rate (pd.category_rma_avg.getD 5 * 2)
  let claim_rate_normalized := 1 - min 1 q2
  let raw_score := (-(3/10)) * rma_rate_normalized + (-(3/10)) * claim_rate_normalized +
    (2/10) * mtbf_normalized + (-(1/10)) * (1 - min 1 (warranty_rate / 10)) +
    (1/10) * reviews_durability_avg
  pure (sigmoid RF raw_score, evidence)

/-- `KPICalculator.calculate_performance_score`.  The generic branch divides
by `max(category_avg, 0.1) ≥ 0.1`, so no division here can fail. -/
def calculatePerformanceScore (RF : RealFuns) (now : ℚ) (pd : ProductData)
    (category : String) : ℚ × List KPIEvidence :=
  let p : ℚ × List KPIEvidence :=
    if category = "footwear" then
      let energy_return := pd.energy_return_percent.getD 50 / 100
      let weight_grams := pd.weight_grams.getD 300
      let cushioning_index := pd.cushioning_index.getD 5 / 10
      let stack_height := pd.stack_height_mm.getD 25
      let weight_score := 1 - min 1 (max 0 (weight_grams - 200) / 300)
      let stack_score := if category = "running" then min 1 (stack_height / 40) else 1/2
      ((4/10) * energy_return + (2/10) * weight_score + (2/10) * cushioning_index +
         (2/10) * stack_score,
       [⟨"energy_return", energy_return, "lab_test", 95/100, now⟩,
        ⟨"weight_score", weight_score, "product_specs", 1, now⟩])
    else if category = "electronics" then
      let benchmark_score := pd.benchmark_percentile.getD 50 / 100
      let efficiency_rating := pd.efficiency_rating.getD 3 / 5
      let latency_ms := pd.latency_ms.getD 100
      let latency_score := 1 - min 1 (latency_ms / 200)
      ((5/10) * benchmark_score + (3/10) * efficiency_rating + (2/10) * latency_score,
       [⟨"benchmark_percentile", benchmark_score, "benchmark_suite", 9/10, now⟩])
    else
      let performance_mentions := pd.reviews_performance_avg.getD (1/2)
      let category_avg := pd.category_performance_avg.getD (1/2)
      (performance_mentions / max category_avg (1/10), [])
  (min 1 (sigmoid RF p.1), p.2)

/-- `KPICalculator.calculate_owner_satisfaction_score`.  The weighted-rating
denominator `verified·1.5 + (total − verified)` is data-controlled (e.g.
`review_count_verified = -2` with the default total 1 makes it zero), so the
division is checked. -/
def calculateOwnerSatisfactionScore (RF : RealFuns) (now : ℚ) (pd : ProductData) :
    Except String (ℚ × List KPIEvidence) := do
  let avg_rating_all := pd.avg_rating.getD 3
  let avg_rating_verified := pd.avg_rating_verified.getD avg_rating_all
  let review_count_verified := pd.review_count_verified.getD 0
  let review_count_total := max (pd.review_count_total.getD 1) 1
  let csat_score := pd.csat_product.getD (7/10)
  let csat_responses := pd.csat_responses.getD 0
  let sentiment_recent := pd.sentiment_90d.getD (1/2)
  let sentiment_previous := pd.sentiment_prev_90d.getD (1/2)
  let sentiment_trend := sentiment_recent - sentiment_previous
  let repeat_purchase_rate := pd.repeat_purchase_rate.getD (1/10)
  let _verification_ratio := review_count_verified / review_count_total
  let weighted_rating ← pyDiv
    (avg_rating_verified * review_count_verified * (3/2) +
      avg_rating_all * (review_count_total - review_count_verified))
    (pd.review_count_verified.getD 0 * (3/2) +
      (max (pd.review_count_total.getD 1) 1 - pd.review_count_verified.getD 0))
  let rating_normalized := (weighted_rating - 1) / 4
  let evidence : List KPIEvidence :=
    [⟨"weighted_rating", weighted_rating, "review_system",
       min 1 (review_count_total / 100), now⟩,
     ⟨"csat_score", csat_score, "survey_system", min 1 (csat_responses / 50), now⟩,
     ⟨"sentiment_trend", sentiment_trend, "sentiment_analysis", 8/10, now⟩]
  let raw_score := (4/10) * rating_normalized + (3/10) * csat_score +
    (2/10) * (sentiment_recent + sentiment_trend) + (1/10) * repeat_purchase_rate
  pure (min 1 (sigmoid RF raw_score), evidence)

/-- `KPICalculator.calculate_uniqueness_score`. -/
def calculateUniquenessScore (RF : RealFuns) (now : ℚ) (pd : ProductData) :
    ℚ × List KPIEvidence :=
  let rare_features := pd.rare_feature_count.getD 0
  let total_features := max (pd.total_feature_count.getD 10) 1
  let feature_rarity := rare_features / total_features
  let is_limited := pd.is_limited_edition.getD false
  let stock_scarcity := pd.stock_scarcity_score.getD 0
  let price_percentile := pd.price_percentile_category.getD 50 / 100
  let evidence : List KPIEvidence :=
    [⟨"feature_rarity", feature_rarity, "market_analysis", 7/10, now⟩]
  (sigmoid RF (feature_rarity * (4/10) + (if is_limited then 1 else 0) * (2/10) +
    stock_scarcity * (2/10) + price_percentile * (2/10)), evidence)

/-- `KPICalculator.calculate_craftsmanship_score`. -/
def calculateCraftsmanshipScore (RF : RealFuns) (now : ℚ) (pd : ProductData) :
    ℚ × List KPIEvidence :=
  let material_grade := pd.material_grade.getD "standard"
  let material_score : ℚ :=
    if material_grade = "premium" then 9/10
    else if material_grade = "high" then 7/10
    else if material_grade = "standard" then 1/2
    else if material_grade = "basic" then 3/10
    else 1/2
  let origin_score := pd.origin_reputation_score.getD (1/2)
  let warranty_days := pd.warranty_days.getD 90
  let warranty_score := min 1 (warranty_days / 730)
  let review_quality_aspect := pd.review_aspect_quality.getD (1/2)
  let review_craftsmanship_mentions := pd.craftsmanship_mention_rate.getD 0
  let evidence : List KPIEvidence :=
    [⟨"material_grade", material_score, "product_specs", 9/10, now⟩]
  (sigmoid RF (material_score * (3/10) + origin_score * (2/10) + warranty_score * (2/10) +
    review_quality_aspect * (2/10) + review_craftsmanship_mentions * (1/10)), evidence)

/-- `KPICalculator.calculate_sustainability_score`.  `category_avg_carbon_kg`
comes straight from the data (default 10) and divides, so the division is
checked.  The final score is `min(1.0, weighted sum)` — there is no `max(0, ·)`
and no sigmoid on this path. -/
def calculateSustainabilityScore (RF : RealFuns) (now : ℚ) (pd : ProductData) :
    Except String (ℚ × List KPIEvidence) := do
  let cert_count : ℚ := (((pd.sustainability_certifications.getD []).length : ℕ) : ℚ)
  let cert_score := min 1 (cert_count / 3)
  let recycled_percentage := pd.recycled_content_percent.getD 0 / 100
  let q ← pyDiv (pd.carbon_footprint_kg.getD 10) (pd.category_avg_carbon_kg.getD 10)
  let carbon_score := max 0 (1 - q)
  let sustainable_packaging := pd.sustainable_packaging.getD false
  let supply_chain_score := pd.supply_chain_transparency.getD 0
  let evidence : List KPIEvidence :=
    [⟨"recycled_content", recycled_percentage, "product_specs", 95/100, now⟩,
     ⟨"carbon_footprint_relative", carbon_score, "lca_analysis", 8/10, now⟩]
  pure (min 1 (cert_score * (3/10) + recycled_percentage * (25/100) +
    carbon_score * (2/10) + (if sustainable_packaging then 1 else 0) * (1/10) +
    supply_chain_score * (15/100)), evidence)

/-- `KPICalculator.calculate_innovation_score`. -/
def calculateInnovationScore (RF : RealFuns) (now : ℚ) (pd : ProductData) :
    ℚ × List KPIEvidence :=
  let new_features := pd.new_feature_count.getD 0
  let patent_count := pd.patent_count.getD 0
  let awards := pd.award_count.getD 0
  let press_mentions := pd.press_mention_count.getD 0
  let uses_new_tech := pd.uses_cutting_edge_tech.getD false
  let tech_generation := pd.tech_generation.getD 1
  let is_first_mover := pd.is_first_in_category.getD false
  let evidence : List KPIEvidence :=
    [⟨"patent_count", patent_count, "patent_database", 1, now⟩]
  (sigmoid RF (min 1 (new_features / 3) * (25/100) + min 1 (patent_count / 2) * (2/10) +
    min 1 (awards / 2) * (15/100) + min 1 (press_mentions / 10) * (1/10) +
    (if uses_new_tech then 1 else 0) * (15/100) + (tech_generation - 1) * (1/10) +
    (if is_first_mover then 1 else 0) * (1/20)), evidence)

/-- `KPICalculator.calculate_all_soft_signals`. -/
def calculateAllSoftSignals (RF : RealFuns) (now : ℚ) (pd : ProductData)
    (category : String) : Except String SoftSignals := do
  let pFit := calculateFitHintScore RF now pd
  let pRel ← calculateReliabilityScore RF now pd
  let pPerf := calculatePerformanceScore RF now pd category
  let pSat ← calculateOwnerSatisfactionScore RF now pd
  let pUniq := calculateUniquenessScore RF now pd
  let pCraft := calculateCraftsmanshipScore RF now pd
  let pSus ← calculateSustainabilityScore RF now pd
  let pInn := calculateInnovationScore RF now pd
  pure
    { fit_hint_score := round3 pFit.1
      reliability_score := round3 pRel.1
      performance_score := round3 pPerf.1
      owner_satisfaction_score := round3 pSat.1
      uniqueness_score := round3 pUniq.1
      craftsmanship_score := round3 pCraft.1
      sustainability_score := round3 pSus.1
      innovation_score := round3 pInn.1
      evidence := pFit.2 ++ pRel.2 ++ pPerf.2 ++ pSat.2 ++ pUniq.2 ++ pCraft.2 ++
        pSus.2 ++ pInn.2
      calculation_method := "weighted_factors_sigmoid_normalized"
      last_updated := now }

/-- C6 counterexample input: `category_avg_carbon_kg` present and zero. -/
def pd6 : ProductData := { category_avg_carbon_kg := some 0 }

/-- C7 counterexample input: a strongly negative recycled-content percentage. -/
def pd7 : ProductData := { recycled_content_percent := some (-400) }

/-! ## Theorems -/

theorem pyDiv_ok {b : ℚ} (a : ℚ) (h : b ≠ 0) : pyDiv a b = .ok (a / b) := by
  simp [pyDiv, h]

/-- `_detect_review_anomalies` raises `TypeError` on every pair of inputs,
because its first statement tests membership in the `bool` returned by
`both`. -/
theorem detectReviewAnomalies_raises (actual expected : ReviewStats) :
    detectReviewAnomalies actual expected =
      .error "TypeError: argument of type bool is not iterable" := rfl

/-- The snapshot fallback always propagates the `TypeError` raised by
`_detect_review_anomalies`. -/
theorem snapshotVerify_raises (RF : RealFuns) (nowT : ℚ) (snapData expected : ReviewStats)
    (anoms0 : List String) :
    snapshotVerify RF nowT snapData expected anoms0 =
      .error "TypeError: argument of type bool is not iterable" := rfl

/-- `verify_review_source` raises `TypeError` on every input: the API branch
catches the exception from `_detect_review_anomalies`, but the snapshot
fallback re-raises it outside any `try`. -/
theorem verifyReviewSource_raises (RF : RealFuns) (nowT : ℚ)
    (apiData snapData : ReviewStats) (source businessId : String)
    (expected : ReviewStats) :
    verifyReviewSource RF nowT apiData snapData source businessId expected =
      .error "TypeError: argument of type bool is not iterable" := by
  unfold verifyReviewSource
  split
  · rfl
  · rfl

/-- Claim C1 (code_bug): with fetched data `avg_rating 4.9, total_reviews
2400, verified_ratio 0.25` and expected stats `avg_rating 4.5,
total_reviews 1200`, `verify_review_source` does not return a
`VerificationResult` at all — it raises `TypeError`, because the helper
`both` returns a `bool` and the detector evaluates
`'avg_rating' in both(actual, expected)`. -/
theorem claim1_rating_anomaly_call_raises_typeerror :
    verifyReviewSource simpleRealFuns 0
      { avg_rating := some (49/10), total_reviews := some 2400, verified_ratio := some (1/4) }
      { avg_rating := some (49/10), total_reviews := some 2400, verified_ratio := some (1/4) }
      "trustpilot" "example-store"
      { avg_rating := some (9/2), total_reviews := some 1200 } =
      .error "TypeError: argument of type bool is not iterable" :=
  verifyReviewSource_raises _ _ _ _ _ _ _

/-- Claim C2 (code_bug): verifying a credential freshly issued by
`generate_verifiable_credential` never returns a `VerificationResult` —
whatever the evidence, the issuer, and the clocks — because the issued
`expirationDate` carries a `Z` designator, so the expiry check compares an
offset-aware datetime against naive `datetime.now()` and raises
`TypeError`. -/
theorem claim2_vc_round_trip_raises_typeerror (e : ProviderEvidence)
    (issuer : String) (issueT verifyT : ℚ) :
    verifyVerifiableCredential verifyT (generateVerifiableCredential issueT e issuer) =
      .error "TypeError: cannot compare offset-naive and offset-aware datetimes" := rfl

/-- Claim C4 counterexample: WHOIS succeeds with day 100 and certificate
transparency succeeds with the later day 200 (DNS and archive fail).  Two
sources succeeded, so the claim demands confidence `min(1, 2/2) = 1`, but
`calculate_domain_age` only records sources that improve the running
minimum and returns confidence `1/2`. -/
theorem claim4_counterexample :
    succCount (some 100) (some 200) none none = 2 ∧
    (calculateDomainAge simpleRealFuns 2000 "example.com"
        (some 100) (some 200) none none).confidence = 1/2 ∧
    (calculateDomainAge simpleRealFuns 2000 "example.com"
        (some 100) (some 200) none none).confidence ≠
      min 1 ((succCount (some 100) (some 200) none none : ℚ) / 2) := by
  refine ⟨rfl, ?_, ?_⟩ <;>
    norm_num [calculateDomainAge, domainAgeStep, succCount, min_def]

set_option maxHeartbeats 1000000 in
/-- Claim C4 as amended: the confidence returned by `calculate_domain_age`
is `min(1, s/2)` where `s` counts the sources whose returned date strictly
precedes every date returned by an earlier-queried successful source (the
first successful source always counts); a successful source whose date does
not improve the running minimum is not counted. -/
theorem claim4_confidence_counts_improving_sources (RF : RealFuns)
    (nowDays : ℤ) (domain : String) (w c d a : Option ℤ) :
    (calculateDomainAge RF nowDays domain w c d a).confidence =
      min 1 ((improvingCount w c d a : ℚ) / 2) := by
  rcases w with _ | wv <;> rcases c with _ | cv <;> rcases d with _ | dv <;>
    rcases a with _ | av <;>
    simp only [calculateDomainAge, domainAgeStep, improvingCount] <;>
    repeat' split_ifs <;> simp_all <;> first | omega | norm_num

theorem alistGet_cons {α : Type} (k' : String) (v' : α) (rest : List (String × α))
    (k : String) :
    alistGet ((k', v') :: rest) k = if k' = k then some v' else alistGet rest k := by
  by_cases h : k' = k <;> simp [alistGet, List.find?_cons, h]

theorem alistGet_set_same {α : Type} (l : List (String × α)) (k : String) (v : α) :
    alistGet (alistSet l k v) k = some v := by
  induction l with
  | nil => simp [alistGet, alistSet]
  | cons p rest ih =>
    rcases p with ⟨k', v'⟩
    by_cases h : k' = k
    · simp [alistSet, h, alistGet_cons]
    · simpa [alistSet, h, alistGet_cons] using ih

theorem alistGet_set_ne {α : Type} (l : List (String × α)) (k1 k2 : String) (v : α)
    (h : k1 ≠ k2) : alistGet (alistSet l k1 v) k2 = alistGet l k2 := by
  induction l with
  | nil => simp [alistGet, alistSet, h]
  | cons p rest ih =>
    rcases p with ⟨k', v'⟩
    by_cases h1 : k' = k1
    · subst h1
      simp [alistSet, alistGet_cons, h]
    · simp [alistSet, h1, alistGet_cons, ih]

theorem string_append_cancel {s1 s2 t : String} (h : s1 ++ t = s2 ++ t) :
    s1 = s2 := by
  have hd : s1.data ++ t.data = s2.data ++ t.data := by
    have := congrArg String.data h
    simpa [String.data_append] using this
  have h2 := List.append_cancel_right hd
  cases s1; cases s2
  exact congrArg String.mk h2

theorem brandKey_inj {p1 p2 domain : String} (h : brandKey p1 domain = brandKey p2 domain) :
    p1 = p2 :=
  string_append_cancel (string_append_cancel h)

theorem productKey_inj {p1 p2 pid : String} (h : productKey p1 pid = productKey p2 pid) :
    p1 = p2 :=
  string_append_cancel (string_append_cancel h)

/-- Invariant carried through the provider loop of `enrich_brand`, tracking
one provider `ptype` whose fetch result `ev` trips anomaly detection: the
registry still maps `ptype` to `prov`, and the cache entry for its key and
the result entry for `ptype` are either absent or equal to the
anomaly-adjusted evidence. -/
def BrandInv (ptype : String) (prov : Provider) (key : String) (adjusted : ProviderEvidence)
    (acc : Orchestrator × List (String × ProviderEvidence)) : Prop :=
  alistGet acc.1.registry ptype = some prov ∧
  (alistGet acc.1.cache key = none ∨ alistGet acc.1.cache key = some adjusted) ∧
  (alistGet acc.2 ptype = none ∨ alistGet acc.2 ptype = some adjusted)

theorem processBrandProvider_inv (hist : String → List EvData) (now : ℚ) (domain : String)
    (ptype : String) (prov : Provider) (ev adjusted : ProviderEvidence)
    (hfetch : prov.fetchBrand domain = .ok ev)
    (hadj : (if detectAnomaly ev.data (hist (brandKey ptype domain)) then
        { ev with data := { ev.data with anomaly_detected := true }, ttl_hours := 1 }
      else ev) = adjusted)
    (acc : Orchestrator × List (String × ProviderEvidence))
    (hP : BrandInv ptype prov (brandKey ptype domain) adjusted acc) (p2 : String) :
    BrandInv ptype prov (brandKey ptype domain) adjusted
      (processBrandProvider hist now domain acc p2) := by
  obtain ⟨hreg, hcache, hres⟩ := hP
  by_cases hp : p2 = ptype
  · subst hp
    rcases hcache with hc | hc
    · simp only [processBrandProvider, hreg, hc, hfetch, hadj]
      exact ⟨hreg, Or.inr (alistGet_set_same _ _ _), Or.inr (alistGet_set_same _ _ _)⟩
    · by_cases hfresh : validateFreshness now adjusted
      · simp only [processBrandProvider, hreg, hc, hfresh, if_true]
        exact ⟨hreg, Or.inr hc, Or.inr (alistGet_set_same _ _ _)⟩
      · simp only [processBrandProvider, hreg, hc, hfresh, if_false, hfetch, hadj]
        exact ⟨hreg, Or.inr (alistGet_set_same _ _ _), Or.inr (alistGet_set_same _ _ _)⟩
  · have hkey : brandKey p2 domain ≠ brandKey ptype domain := fun hk => hp (brandKey_inj hk)
    cases hreg2 : alistGet acc.1.registry p2 with
    | none => simpa only [processBrandProvider, hreg2] using ⟨hreg, hcache, hres⟩
    | some prov2 =>
      cases hc2 : alistGet acc.1.cache (brandKey p2 domain) with
      | some ev2 =>
        by_cases hfresh : validateFreshness now ev2
        · simp only [processBrandProvider, hreg2, hc2, hfresh, if_true]
          refine ⟨hreg, hcache, ?_⟩
          rw [alistGet_set_ne _ _ _ _ hp]
          exact hres
        · simp only [processBrandProvider, hreg2, hc2, hfresh, Bool.false_eq_true, if_false]
          cases hf : prov2.fetchBrand domain with
          | error e =>
            simpa only [hf] using ⟨hreg, hcache, hres⟩
          | ok ev2f =>
            simp only [hf]
            refine ⟨hreg, ?_, ?_⟩
            · rw [alistGet_set_ne _ _ _ _ hkey]
              exact hcache
            · rw [alistGet_set_ne _ _ _ _ hp]
              exact hres
      | none =>
        simp only [processBrandProvider, hreg2, hc2]
        cases hf : prov2.fetchBrand domain with
        | error e =>
          simpa only [hf] using ⟨hreg, hcache, hres⟩
        | ok ev2f =>
          simp only [hf]
          refine ⟨hreg, ?_, ?_⟩
          · rw [alistGet_set_ne _ _ _ _ hkey]
            exact hcache
          · rw [alistGet_set_ne _ _ _ _ hp]
            exact hres

theorem enrichBrand_fold_inv (hist : String → List EvData) (now : ℚ) (domain : String)
    (ptype : String) (prov : Provider) (ev : ProviderEvidence) (adjusted : ProviderEvidence)
    (hfetch : prov.fetchBrand domain = .ok ev)
    (hadj : (if detectAnomaly ev.data (hist (brandKey ptype domain)) then
        { ev with data := { ev.data with anomaly_detected := true }, ttl_hours := 1 }
      else ev) = adjusted)
    (plist : List String) (acc : Orchestrator × List (String × ProviderEvidence))
    (hP : BrandInv ptype prov (brandKey ptype domain) adjusted acc) :
    BrandInv ptype prov (brandKey ptype domain) adjusted
      (plist.foldl (processBrandProvider hist now domain) acc) := by
  induction plist generalizing acc with
  | nil => exact hP
  | cons p rest ih =>
    exact ih _ (processBrandProvider_inv hist now domain ptype prov ev adjusted hfetch hadj acc hP p)

/-- Invariant carried through the provider loop of `enrich_product`: the
registry still maps `ptype` to `prov`, and both the cache entry for its key
and the result entry for `ptype` are either absent or equal to the fetched
evidence, unchanged. -/
def ProductInv (ptype : String) (prov : Provider) (key : String) (ev : ProviderEvidence)
    (acc : Orchestrator × List (String × ProviderEvidence)) : Prop :=
  alistGet acc.1.registry ptype = some prov ∧
  (alistGet acc.1.cache key = none ∨ alistGet acc.1.cache key = some ev) ∧
  (alistGet acc.2 ptype = none ∨ alistGet acc.2 ptype = some ev)

theorem processProductProvider_inv (now : ℚ) (productId : String)
    (ptype : String) (prov : Provider) (ev : ProviderEvidence)
    (hfetch : prov.fetchProduct productId = .ok ev)
    (acc : Orchestrator × List (String × ProviderEvidence))
    (hP : ProductInv ptype prov (productKey ptype productId) ev acc) (p2 : String) :
    ProductInv ptype prov (productKey ptype productId) ev
      (processProductProvider now productId acc p2) := by
  obtain ⟨hreg, hcache, hres⟩ := hP
  by_cases hp : p2 = ptype
  · subst hp
    rcases hcache with hc | hc
    · simp only [processProductProvider, hreg, hc, hfetch]
      exact ⟨hreg, Or.inr (alistGet_set_same _ _ _), Or.inr (alistGet_set_same _ _ _)⟩
    · by_cases hfresh : validateFreshness now ev
      · simp only [processProductProvider, hreg, hc, hfresh, if_true]
        exact ⟨hreg, Or.inr hc, Or.inr (alistGet_set_same _ _ _)⟩
      · simp only [processProductProvider, hreg, hc, hfresh, Bool.false_eq_true, if_false,
          hfetch]
        exact ⟨hreg, Or.inr (alistGet_set_same _ _ _), Or.inr (alistGet_set_same _ _ _)⟩
  · have hkey : productKey p2 productId ≠ productKey ptype productId :=
      fun hk => hp (productKey_inj hk)
    cases hreg2 : alistGet acc.1.registry p2 with
    | none => simpa only [processProductProvider, hreg2] using ⟨hreg, hcache, hres⟩
    | some prov2 =>
      cases hc2 : alistGet acc.1.cache (productKey p2 productId) with
      | some ev2 =>
        by_cases hfresh : validateFreshness now ev2
        · simp only [processProductProvider, hreg2, hc2, hfresh, if_true]
          refine ⟨hreg, hcache, ?_⟩
          rw [alistGet_set_ne _ _ _ _ hp]
          exact hres
        · simp only [processProductProvider, hreg2, hc2, hfresh, Bool.false_eq_true, if_false]
          cases hf : prov2.fetchProduct productId with
          | error e =>
            simpa only [hf] using ⟨hreg, hcache, hres⟩
          | ok ev2f =>
            simp only [hf]
            refine ⟨hreg, ?_, ?_⟩
            · rw [alistGet_set_ne _ _ _ _ hkey]
              exact hcache
            · rw [alistGet_set_ne _ _ _ _ hp]
              exact hres
      | none =>
        simp only [processProductProvider, hreg2, hc2]
        cases hf : prov2.fetchProduct productId with
        | error e =>
          simpa only [hf] using ⟨hreg, hcache, hres⟩
        | ok ev2f =>
          simp only [hf]
          refine ⟨hreg, ?_, ?_⟩
          · rw [alistGet_set_ne _ _ _ _ hkey]
            exact hcache
          · rw [alistGet_set_ne _ _ _ _ hp]
            exact hres

theorem enrichProduct_fold_inv (now : ℚ) (productId : String)
    (ptype : String) (prov : Provider) (ev : ProviderEvidence)
    (hfetch : prov.fetchProduct productId = .ok ev)
    (plist : List String) (acc : Orchestrator × List (String × ProviderEvidence))
    (hP : ProductInv ptype prov (productKey ptype productId) ev acc) :
    ProductInv ptype prov (productKey ptype productId) ev
      (plist.foldl (processProductProvider now productId) acc) := by
  induction plist generalizing acc with
  | nil => exact hP
  | cons p rest ih =>
    exact ih _ (processProductProvider_inv now productId ptype prov ev hfetch acc hP p)

/-- Claim C8 counterexample: a product fetch whose `count_total` is twenty
times the prior historical record trips `detect_anomaly`, yet the evidence
`enrich_product` stores and returns keeps `ttl_hours = 24` and carries no
`anomaly_detected` flag, because the product path runs no anomaly
detection. -/
theorem claim8_counterexample :
    detectAnomaly c8Evidence.data (c8Hist (productKey "google_seller_ratings" "sku_1")) = true ∧
    alistGet (enrichProduct 0 c8Orchestrator "sku_1" none).2 "google_seller_ratings" =
      some c8Evidence ∧
    c8Evidence.ttl_hours ≠ 1 ∧
    c8Evidence.data.anomaly_detected = false := by
  refine ⟨?_, rfl, by norm_num [c8Evidence], rfl⟩
  norm_num [detectAnomaly, c8Evidence, c8Hist, productKey]

/-- Claim C8 as amended: in `enrich_brand`, a fresh fetch (registered
provider, no prior cache entry for the key) whose data trips
`detect_anomaly` against the historical records yields a result-map entry
with `ttl_hours = 1` and `data.anomaly_detected = true`; in
`enrich_product`, however, the result-map entry for a fresh fetch is the
fetched evidence unchanged — no anomaly detection is performed even when
the historical records for the key would trip it. -/
theorem claim8_brand_flags_anomalies_product_does_not :
    (∀ (hist : String → List EvData) (now : ℚ) (st : Orchestrator)
       (domain : String) (provs : Option (List String)) (ptype : String)
       (prov : Provider) (ev ev2 : ProviderEvidence),
       alistGet st.registry ptype = some prov →
       alistGet st.cache (brandKey ptype domain) = none →
       prov.fetchBrand domain = .ok ev →
       detectAnomaly ev.data (hist (brandKey ptype domain)) = true →
       alistGet (enrichBrand hist now st domain provs).2 ptype = some ev2 →
       ev2.ttl_hours = 1 ∧ ev2.data.anomaly_detected = true) ∧
    (∀ (hist : String → List EvData) (now : ℚ) (st : Orchestrator)
       (productId : String) (provs : Option (List String)) (ptype : String)
       (prov : Provider) (ev ev2 : ProviderEvidence),
       alistGet st.registry ptype = some prov →
       alistGet st.cache (productKey ptype productId) = none →
       prov.fetchProduct productId = .ok ev →
       detectAnomaly ev.data (hist (productKey ptype productId)) = true →
       alistGet (enrichProduct now st productId provs).2 ptype = some ev2 →
       ev2 = ev) := by
  constructor
  · intro hist now st domain provs ptype prov ev ev2 hreg hcache hfetch hdet hres
    have hinv := enrichBrand_fold_inv hist now domain ptype prov ev
      { ev with data := { ev.data with anomaly_detected := true }, ttl_hours := 1 }
      hfetch (by rw [hdet]; simp) (provs.getD (st.registry.map Prod.fst)) (st, [])
      ⟨hreg, Or.inl hcache, Or.inl rfl⟩
    rcases hinv.2.2 with hr | hr
    · rw [enrichBrand] at hres
      rw [hres] at hr
      cases hr
    · rw [enrichBrand] at hres
      rw [hres] at hr
      cases hr
      exact ⟨rfl, rfl⟩
  · intro hist now st productId provs ptype prov ev ev2 hreg hcache hfetch _hdet hres
    have hinv := enrichProduct_fold_inv now productId ptype prov ev hfetch
      (provs.getD ["trusted_shops", "google_seller_ratings"]) (st, [])
      ⟨hreg, Or.inl hcache, Or.inl rfl⟩
    rcases hinv.2.2 with hr | hr
    · rw [enrichProduct] at hres
      rw [hres] at hr
      cases hr
    · rw [enrichProduct] at hres
      rw [hres] at hr
      cases hr
      rfl

theorem vcConfidence_bounds (n : ℕ) : 1/10 ≤ vcConfidence n ∧ vcConfidence n ≤ 1 := by
  unfold vcConfidence
  rcases Nat.eq_zero_or_pos n with h | h
  · simp [h]
    norm_num
  · rw [if_neg (Nat.pos_iff_ne_zero.mp h)]
    constructor
    · exact le_trans (by norm_num) (le_max_left _ _)
    · apply max_le (by norm_num)
      have hn : (0:ℚ) ≤ (n : ℚ) * (2/10) := by positivity
      linarith

theorem vcConfidence_antitone {n1 n2 : ℕ} (h : n1 ≤ n2) :
    vcConfidence n2 ≤ vcConfidence n1 := by
  unfold vcConfidence
  rcases Nat.eq_zero_or_pos n1 with h1 | h1
  · subst h1
    rw [if_pos rfl]
    rcases Nat.eq_zero_or_pos n2 with h2 | h2
    · simp [h2]
    · rw [if_neg (Nat.pos_iff_ne_zero.mp h2)]
      apply max_le (by norm_num)
      have hn : (0:ℚ) ≤ (n2 : ℚ) * (2/10) := by positivity
      linarith
  · have h2 : 0 < n2 := lt_of_lt_of_le h1 h
    rw [if_neg (Nat.pos_iff_ne_zero.mp h1), if_neg (Nat.pos_iff_ne_zero.mp h2)]
    apply max_le_max le_rfl
    have : (n1 : ℚ) ≤ (n2 : ℚ) := Nat.cast_le.mpr h
    nlinarith

theorem clampAntitone (K : ℚ) {n1 n2 : ℕ} (h : n1 ≤ n2) :
    min 1 (max (1/10) (K * (9/10) ^ n2)) ≤ min 1 (max (1/10) (K * (9/10) ^ n1)) := by
  rcases le_or_lt 0 K with hK | hK
  · have hpow : ((9:ℚ)/10) ^ n2 ≤ (9/10) ^ n1 :=
      pow_le_pow_of_le_one (by norm_num) (by norm_num) h
    exact min_le_min le_rfl (max_le_max le_rfl (mul_le_mul_of_nonneg_left hpow hK))
  · have h1 : K * (9/10) ^ n2 ≤ 1/10 := by
      have : K * (9/10) ^ n2 < 0 := mul_neg_of_neg_of_pos hK (by positivity)
      linarith
    have h2 : K * (9/10) ^ n1 ≤ 1/10 := by
      have : K * (9/10) ^ n1 < 0 := mul_neg_of_neg_of_pos hK (by positivity)
      linarith
    rw [max_eq_left h1, max_eq_left h2]

theorem calculateConfidence_antitone (RF : RealFuns) (data : ReviewStats)
    (a1 a2 : List String) (h : a1.length ≤ a2.length) :
    calculateConfidence RF a2 data ≤ calculateConfidence RF a1 data := by
  rcases hvr : data.verified_ratio with _ | vr <;>
    rcases htr : data.total_reviews with _ | tr <;>
    simp only [calculateConfidence, hvr, htr]
  · exact clampAntitone (8/10) h
  · have e : ∀ n : ℕ, (8/10:ℚ) * (9/10) ^ n *
        (8/10 + 2/10 * min 1 (RF.log (tr + 1) / RF.log 1000)) =
        (8/10 * (8/10 + 2/10 * min 1 (RF.log (tr + 1) / RF.log 1000))) * (9/10) ^ n :=
      fun n => by ring
    rw [e, e]
    exact clampAntitone _ h
  · have e : ∀ n : ℕ, (8/10:ℚ) * (9/10) ^ n * (7/10 + 3/10 * vr) =
        (8/10 * (7/10 + 3/10 * vr)) * (9/10) ^ n := fun n => by ring
    rw [e, e]
    exact clampAntitone _ h
  · have e : ∀ n : ℕ, (8/10:ℚ) * (9/10) ^ n * (7/10 + 3/10 * vr) *
        (8/10 + 2/10 * min 1 (RF.log (tr + 1) / RF.log 1000)) =
        (8/10 * (7/10 + 3/10 * vr) *
          (8/10 + 2/10 * min 1 (RF.log (tr + 1) / RF.log 1000))) * (9/10) ^ n :=
      fun n => by ring
    rw [e, e]
    exact clampAntitone _ h

theorem except_pure_eq_ok {ε α : Type} (x : α) :
    (pure x : Except ε α) = Except.ok x := rfl

theorem verifyCertification_conf_bounds (nowT : ℚ) (certType certId issuer : String)
    (certData : CertData) (r : VerificationResult)
    (h : verifyCertification nowT certType certId issuer certData = .ok r) :
    1/10 ≤ r.confidence ∧ r.confidence ≤ 1 := by
  unfold verifyCertification at h
  cases hv : alistGet certValidators (strToLower certType) with
  | some validator =>
    rcases hval : validator certId issuer with ⟨valid, details⟩
    simp only [hv, hval] at h
    cases valid <;> simp at h <;> rw [← h] <;> norm_num
  | none =>
    rcases hed : certData.expiry_date with _ | ds
    · simp only [hv, hed, checkRevocation] at h
      replace h := Except.ok.inj h
      rw [← h]
      norm_num
    · cases hz : ds.suffixZ with
      | true =>
        exfalso
        simp only [hv, hed, pyLtDT, parseIso, hz] at h
        simp at h
      | false =>
        simp only [hv, hed, pyLtDT, parseIso, hz, checkRevocation] at h
        by_cases hlt : ds.t < nowT <;> replace h := Except.ok.inj h <;>
          rw [← h] <;> norm_num [hlt]

theorem verifyVC_conf_bounds (nowT : ℚ) (vc : VCred) (r : VerificationResult)
    (h : verifyVerifiableCredential nowT vc = .ok r) :
    1/10 ≤ r.confidence ∧ r.confidence ≤ 1 := by
  unfold verifyVerifiableCredential at h
  by_cases hm : (vcMissingFields vc).isEmpty
  · rw [if_pos hm] at h
    rcases hed : vc.expirationDate with _ | ds
    · simp only [hed] at h
      replace h := Except.ok.inj h
      rw [← h]
      exact vcConfidence_bounds _
    · cases hz : ds.suffixZ with
      | true =>
        exfalso
        simp only [hed, pyLtDT, parseIso, hz] at h
        simp at h
      | false =>
        simp only [hed, pyLtDT, parseIso, hz] at h
        by_cases hlt : ds.t < nowT <;> replace h := Except.ok.inj h <;> rw [← h] <;>
          exact vcConfidence_bounds _
  · rw [if_neg hm] at h
    simp at h
    rw [← h]
    norm_num

/-- Claim C9: every `VerificationResult` produced by the three verification
operations has confidence in `[0.1, 1]` (for `verify_review_source` this is
vacuous: it never returns, see `verifyReviewSource_raises`); and on
otherwise-identical data the confidence formulas are monotonically
non-increasing in the number of anomalies (`_calculate_confidence` for the
snapshot path, the `0.95 - 0.2·n` rule for credentials). -/
theorem claim9_confidence_bounded_and_antitone :
    (∀ (RF : RealFuns) (nowT : ℚ) (apiData snapData : ReviewStats)
       (source businessId : String) (expected : ReviewStats) (r : VerificationResult),
       verifyReviewSource RF nowT apiData snapData source businessId expected = .ok r →
       1/10 ≤ r.confidence ∧ r.confidence ≤ 1) ∧
    (∀ (nowT : ℚ) (certType certId issuer : String) (certData : CertData)
       (r : VerificationResult),
       verifyCertification nowT certType certId issuer certData = .ok r →
       1/10 ≤ r.confidence ∧ r.confidence ≤ 1) ∧
    (∀ (nowT : ℚ) (vc : VCred) (r : VerificationResult),
       verifyVerifiableCredential nowT vc = .ok r →
       1/10 ≤ r.confidence ∧ r.confidence ≤ 1) ∧
    (∀ (RF : RealFuns) (data : ReviewStats) (a1 a2 : List String),
       a1.length ≤ a2.length →
       calculateConfidence RF a2 data ≤ calculateConfidence RF a1 data) ∧
    (∀ n1 n2 : ℕ, n1 ≤ n2 → vcConfidence n2 ≤ vcConfidence n1) := by
  refine ⟨?_, ?_, ?_, ?_, ?_⟩
  · intro RF nowT apiData snapData source businessId expected r h
    rw [verifyReviewSource_raises] at h
    cases h
  · exact verifyCertification_conf_bounds
  · exact verifyVC_conf_bounds
  · exact calculateConfidence_antitone
  · exact fun n1 n2 h => vcConfidence_antitone h

/-- Witness for C9: the bound instantiated on a concrete certification
verification that returns, and the antitone rule instantiated at one and
three anomalies. -/
theorem claim9_witness :
    ((1:ℚ)/10 ≤ (VerificationResult.mk .api (95/100) ⟨0, false⟩ (some "iso_sig_123") none []
        (some (reprStr isoDetails))).confidence ∧
      (VerificationResult.mk .api (95/100) ⟨0, false⟩ (some "iso_sig_123") none []
        (some (reprStr isoDetails))).confidence ≤ 1) ∧
    vcConfidence 3 ≤ vcConfidence 1 :=
  ⟨claim9_confidence_bounded_and_antitone.2.1 0 "iso" "ISO9001:2015" "SGS"
      { cert_type := "iso", cert_id := "ISO9001:2015", issuer := "SGS" } _ rfl,
    claim9_confidence_bounded_and_antitone.2.2.2.2 1 3 (by norm_num)⟩

theorem except_bind_ok {ε α β : Type} (a : α) (f : α → Except ε β) :
    (Except.ok a >>= f : Except ε β) = f a := rfl

theorem except_bind_err {ε α β : Type} (e : ε) (f : α → Except ε β) :
    (Except.error e >>= f : Except ε β) = Except.error e := rfl

theorem qsum_map_div (xs : List ℚ) (d : ℚ) :
    (xs.map fun x => x / d).sum = xs.sum / d := by
  induction xs with
  | nil => simp
  | cons x rest ih => simp [ih, add_div]

theorem divideAll_ok {d : ℚ} {l out : List (String × ℚ)}
    (h : divideAll d l = .ok out) :
    out = l.map (fun p => (p.1, p.2 / d)) ∧ (l ≠ [] → d ≠ 0) := by
  induction l generalizing out with
  | nil =>
    simp only [divideAll] at h
    replace h := Except.ok.inj h
    simp [← h]
  | cons p ps ih =>
    simp only [divideAll, pyDiv] at h
    by_cases hd : d = 0
    · rw [if_pos hd] at h
      simp [except_bind_err] at h
    · rw [if_neg hd] at h
      cases hr : divideAll d ps with
      | error e =>
        rw [hr] at h
        simp [except_bind_ok, except_bind_err] at h
      | ok rest =>
        rw [hr] at h
        simp only [except_bind_ok, except_pure_eq_ok, Except.ok.injEq] at h
        obtain ⟨hmap, -⟩ := ih hr
        subst hmap
        simp [← h, hd]

theorem smoothScores_keys {alpha d : ℚ} {l out : List (String × ℚ)}
    (h : smoothScores alpha d l = .ok out) :
    out.map Prod.fst = l.map Prod.fst := by
  induction l generalizing out with
  | nil =>
    simp only [smoothScores] at h
    replace h := Except.ok.inj h
    simp [← h]
  | cons p ps ih =>
    simp only [smoothScores, pyDiv] at h
    by_cases hd : d = 0
    · rw [if_pos hd] at h
      simp [except_bind_err] at h
    · rw [if_neg hd] at h
      cases hr : smoothScores alpha d ps with
      | error e =>
        rw [hr] at h
        simp [except_bind_ok, except_bind_err] at h
      | ok rest =>
        rw [hr] at h
        simp only [except_bind_ok, except_pure_eq_ok, Except.ok.injEq] at h
        simp [← h, ih hr]

theorem addUnseen_keys {alpha d : ℚ} {acc out : List (String × ℚ)} {l : List String}
    (h : addUnseen alpha d acc l = .ok out) :
    ∀ k, k ∈ out.map Prod.fst → k ∈ acc.map Prod.fst ∨ k ∈ l := by
  induction l generalizing acc with
  | nil =>
    simp only [addUnseen] at h
    replace h := Except.ok.inj h
    subst h
    exact fun k hk => Or.inl hk
  | cons it rest ih =>
    simp only [addUnseen] at h
    by_cases hp : (alistGet acc it).isSome
    · rw [if_pos hp] at h
      intro k hk
      rcases ih h k hk with hk2 | hk2
      · exact Or.inl hk2
      · exact Or.inr (List.mem_cons_of_mem _ hk2)
    · rw [if_neg hp] at h
      simp only [pyDiv] at h
      by_cases hd : d = 0
      · rw [if_pos hd] at h
        simp [except_bind_err] at h
      · rw [if_neg hd] at h
        rw [except_bind_ok] at h
        intro k hk
        rcases ih h k hk with hk2 | hk2
        · rw [List.map_append] at hk2
          rcases List.mem_append.mp hk2 with hk3 | hk3
          · exact Or.inl hk3
          · simp at hk3
            subst hk3
            exact Or.inr (List.mem_cons_self _ _)
        · exact Or.inr (List.mem_cons_of_mem _ hk2)

theorem addUnseen_ne_nil {alpha d : ℚ} {acc out : List (String × ℚ)} {l : List String}
    (h : addUnseen alpha d acc l = .ok out) (hne : acc ≠ [] ∨ l ≠ []) :
    out ≠ [] := by
  induction l generalizing acc with
  | nil =>
    simp only [addUnseen] at h
    replace h := Except.ok.inj h
    subst h
    exact hne.resolve_right fun hc => hc rfl
  | cons it rest ih =>
    simp only [addUnseen] at h
    by_cases hp : (alistGet acc it).isSome
    · rw [if_pos hp] at h
      refine ih h (Or.inl ?_)
      intro hc
      subst hc
      simp [alistGet] at hp
    · rw [if_neg hp] at h
      simp only [pyDiv] at h
      by_cases hd : d = 0
      · rw [if_pos hd] at h
        simp [except_bind_err] at h
      · rw [if_neg hd] at h
        rw [except_bind_ok] at h
        refine ih h (Or.inl ?_)
        simp

theorem dirichletSmooth_sum_one {alpha : ℚ} {scores out : List (String × ℚ)} {n : ℕ}
    (h : dirichletSmooth alpha scores n = .ok out) :
    (out.map Prod.snd).sum = 1 := by
  simp only [dirichletSmooth] at h
  cases hsm : smoothScores alpha (((scores.map Prod.snd).sum) * 100 + (n : ℚ) * alpha) scores with
  | error e =>
    rw [hsm] at h
    simp [except_bind_err] at h
  | ok s1 =>
    rw [hsm, except_bind_ok] at h
    cases hau : addUnseen alpha (((scores.map Prod.snd).sum) * 100 + (n : ℚ) * alpha) s1
        intentTaxonomy with
    | error e =>
      rw [hau] at h
      simp [except_bind_err] at h
    | ok s2 =>
      rw [hau, except_bind_ok] at h
      have hs2 : s2 ≠ [] := addUnseen_ne_nil hau (Or.inr (by simp [intentTaxonomy]))
      obtain ⟨hmap, hdz⟩ := divideAll_ok h
      have hden : (s2.map Prod.snd).sum ≠ 0 := hdz hs2
      subst hmap
      have h2 : List.map Prod.snd
            (List.map (fun p : String × ℚ => (p.1, p.2 / (s2.map Prod.snd).sum)) s2) =
          List.map (fun x => x / (s2.map Prod.snd).sum) (List.map Prod.snd s2) := by
        rw [List.map_map, List.map_map]
        rfl
      rw [h2, qsum_map_div]
      exact div_self hden

theorem dirichletSmooth_keys {alpha : ℚ} {scores out : List (String × ℚ)} {n : ℕ}
    (h : dirichletSmooth alpha scores n = .ok out) :
    ∀ k, k ∈ out.map Prod.fst → k ∈ scores.map Prod.fst ∨ k ∈ intentTaxonomy := by
  simp only [dirichletSmooth] at h
  cases hsm : smoothScores alpha (((scores.map Prod.snd).sum) * 100 + (n : ℚ) * alpha) scores with
  | error e =>
    rw [hsm] at h
    simp [except_bind_err] at h
  | ok s1 =>
    rw [hsm, except_bind_ok] at h
    cases hau : addUnseen alpha (((scores.map Prod.snd).sum) * 100 + (n : ℚ) * alpha) s1
        intentTaxonomy with
    | error e =>
      rw [hau] at h
      simp [except_bind_err] at h
    | ok s2 =>
      rw [hau, except_bind_ok] at h
      obtain ⟨hmap, -⟩ := divideAll_ok h
      subst hmap
      intro k hk
      rw [List.map_map] at hk
      have hk2 : k ∈ s2.map Prod.fst := by
        simpa using hk
      rcases addUnseen_keys hau k hk2 with hk3 | hk3
      · rw [smoothScores_keys hsm] at hk3
        exact Or.inl hk3
      · exact Or.inr hk3

theorem sigInsert_perm (s : IntentSignal) (l : List IntentSignal) :
    List.Perm (sigInsert s l) (s :: l) := by
  induction l with
  | nil => simp [sigInsert]
  | cons t ts ih =>
    simp only [sigInsert]
    by_cases hc : s.share ≥ t.share
    · rw [if_pos hc]
    · rw [if_neg hc]
      exact (ih.cons t).trans (List.Perm.swap s t ts)

theorem sigSortDesc_perm (l : List IntentSignal) : List.Perm (sigSortDesc l) l := by
  induction l with
  | nil => simp [sigSortDesc]
  | cons x xs ih =>
    have : sigSortDesc (x :: xs) = sigInsert x (sigSortDesc xs) := rfl
    rw [this]
    exact (sigInsert_perm x (sigSortDesc xs)).trans (ih.cons x)

theorem mem_sigInsert {u s : IntentSignal} {l : List IntentSignal}
    (h : u ∈ sigInsert s l) : u = s ∨ u ∈ l := by
  have h2 := (sigInsert_perm s l).mem_iff.mp h
  exact List.mem_cons.mp h2

theorem sigInsert_pairwise (s : IntentSignal) (l : List IntentSignal)
    (hl : l.Pairwise fun a b => b.share ≤ a.share) :
    (sigInsert s l).Pairwise fun a b => b.share ≤ a.share := by
  induction l with
  | nil => simp [sigInsert]
  | cons t ts ih =>
    rcases List.pairwise_cons.mp hl with ⟨ht, hts⟩
    simp only [sigInsert]
    by_cases hc : s.share ≥ t.share
    · rw [if_pos hc]
      refine List.Pairwise.cons ?_ hl
      intro u hu
      rcases List.mem_cons.mp hu with h3 | h3
      · subst h3
        exact hc
      · exact le_trans (ht u h3) hc
    · rw [if_neg hc]
      refine List.Pairwise.cons ?_ (ih hts)
      intro u hu
      rcases mem_sigInsert hu with hu2 | hu2
      · subst hu2
        exact le_of_not_ge hc
      · exact ht u hu2

theorem sigSortDesc_pairwise (l : List IntentSignal) :
    (sigSortDesc l).Pairwise fun a b => b.share ≤ a.share := by
  induction l with
  | nil => simp [sigSortDesc]
  | cons x xs ih => exact sigInsert_pairwise x (sigSortDesc xs) ih

theorem sortedSum_of_smooth_bind {alpha : ℚ} {MS : List (String × ℚ)} {n : ℕ}
    {F : String × ℚ → IntentSignal} (hF : ∀ p, (F p).share = p.2)
    {sigs : List IntentSignal}
    (h : (dirichletSmooth alpha MS n >>= fun smoothed =>
        pure (sigSortDesc (smoothed.map F))) = .ok sigs) :
    (sigs.map IntentSignal.share).sum = 1 ∧
    sigs.Pairwise (fun a b => b.share ≤ a.share) := by
  cases hd : dirichletSmooth alpha MS n with
  | error e =>
    rw [hd, except_bind_err] at h
    cases h
  | ok smoothed =>
    rw [hd, except_bind_ok, except_pure_eq_ok] at h
    replace h := Except.ok.inj h
    subst h
    constructor
    · have hperm := (sigSortDesc_perm (smoothed.map F)).map IntentSignal.share
      rw [hperm.sum_eq, List.map_map]
      have heq : List.map (IntentSignal.share ∘ F) smoothed = List.map Prod.snd smoothed :=
        List.map_congr_left fun p _ => hF p
      rw [heq]
      exact dirichletSmooth_sum_one hd
    · exact sigSortDesc_pairwise _

theorem keysMem_of_smooth_bind {alpha : ℚ} {MS : List (String × ℚ)} {n : ℕ}
    {F : String × ℚ → IntentSignal} (hF : ∀ p, (F p).intent = p.1)
    {sigs : List IntentSignal}
    (h : (dirichletSmooth alpha MS n >>= fun smoothed =>
        pure (sigSortDesc (smoothed.map F))) = .ok sigs) :
    ∀ s ∈ sigs, s.intent ∈ MS.map Prod.fst ∨ s.intent ∈ intentTaxonomy := by
  cases hd : dirichletSmooth alpha MS n with
  | error e =>
    rw [hd, except_bind_err] at h
    cases h
  | ok smoothed =>
    rw [hd, except_bind_ok, except_pure_eq_ok] at h
    replace h := Except.ok.inj h
    subst h
    intro s hs
    have hs2 : s ∈ smoothed.map F := (sigSortDesc_perm _).mem_iff.mp hs
    obtain ⟨p, hp, hps⟩ := List.mem_map.mp hs2
    have : s.intent = p.1 := by rw [← hps, hF]
    rw [this]
    exact dirichletSmooth_keys hd p.1 (List.mem_map_of_mem Prod.fst hp)

theorem confEq_of_smooth_bind {alpha : ℚ} {MS : List (String × ℚ)} {n : ℕ} {c : ℚ}
    {F : String × ℚ → IntentSignal} (hF : ∀ p, (F p).confidence = c)
    {sigs : List IntentSignal}
    (h : (dirichletSmooth alpha MS n >>= fun smoothed =>
        pure (sigSortDesc (smoothed.map F))) = .ok sigs) :
    ∀ s ∈ sigs, s.confidence = c := by
  cases hd : dirichletSmooth alpha MS n with
  | error e =>
    rw [hd, except_bind_err] at h
    cases h
  | ok smoothed =>
    rw [hd, except_bind_ok, except_pure_eq_ok] at h
    replace h := Except.ok.inj h
    subst h
    intro s hs
    have hs2 : s ∈ smoothed.map F := (sigSortDesc_perm _).mem_iff.mp hs
    obtain ⟨p, hp, hps⟩ := List.mem_map.mp hs2
    rw [← hps, hF]

/-- Claim C3: whenever `compute_intent_signals` returns a bundle, the shares
sum to exactly 1 (so in particular to 1 within 1e-6) and the signals are
sorted by share in descending order. -/
theorem claim3_shares_sum_one_and_sorted (RF : RealFuns) (ex : IntentExtractor)
    (now : ℤ) (productId : String) (ds : DataSources) (sinceDays : ℚ)
    (sigs : List IntentSignal)
    (h : computeIntentSignals RF ex now productId ds sinceDays = .ok sigs) :
    (sigs.map IntentSignal.share).sum = 1 ∧
    sigs.Pairwise (fun a b => b.share ≤ a.share) := by
  simp only [computeIntentSignals] at h
  cases ht : extractFromText productId (ds.texts.getD []) with
  | error e =>
    rw [ht, except_bind_err] at h
    cases h
  | ok textIntents =>
    rw [ht, except_bind_ok] at h
    exact sortedSum_of_smooth_bind (fun p => rfl) h


theorem alistGet_map_snd {α β : Type} {l : List (String × α)} {k : String}
    (g : String × α → β) (h : alistGet l k = none) :
    alistGet (l.map fun p => (p.1, g p)) k = none := by
  induction l with
  | nil => simp [alistGet]
  | cons p rest ih =>
    rcases p with ⟨k2, v2⟩
    by_cases h2 : k2 = k
    · simp [alistGet_cons, h2] at h
    · simp only [List.map_cons] at *
      rw [alistGet_cons] at h ⊢
      rw [if_neg h2] at h
      rw [if_neg h2]
      exact ih h

theorem alistGet_append_of_none {α : Type} {l1 : List (String × α)}
    (l2 : List (String × α)) {k : String} (h : alistGet l1 k = none) :
    alistGet (l1 ++ l2) k = alistGet l2 k := by
  induction l1 with
  | nil => simp
  | cons p rest ih =>
    rcases p with ⟨k2, v2⟩
    by_cases h2 : k2 = k
    · simp [alistGet_cons, h2] at h
    · rw [alistGet_cons] at h
      rw [if_neg h2] at h
      rw [List.cons_append, alistGet_cons, if_neg h2]
      exact ih h

theorem smoothScores_eval (alpha : ℚ) {d : ℚ} (hd : d ≠ 0)
    (l : List (String × ℚ)) :
    smoothScores alpha d l = .ok (l.map fun p => (p.1, (p.2 * 100 + alpha) / d)) := by
  induction l with
  | nil => rfl
  | cons p ps ih =>
    simp only [smoothScores, pyDiv_ok _ hd, except_bind_ok, ih, List.map_cons]
    rfl

theorem divideAll_eval {d : ℚ} (hd : d ≠ 0) (l : List (String × ℚ)) :
    divideAll d l = .ok (l.map fun p => (p.1, p.2 / d)) := by
  induction l with
  | nil => rfl
  | cons p ps ih =>
    simp only [divideAll, pyDiv_ok _ hd, except_bind_ok, ih, List.map_cons]
    rfl

theorem addUnseen_eval (alpha : ℚ) {d : ℚ} (hd : d ≠ 0) :
    ∀ (l : List String) (acc : List (String × ℚ)),
    (∀ it ∈ l, alistGet acc it = none) → l.Nodup →
    addUnseen alpha d acc l = .ok (acc ++ l.map fun it => (it, alpha / d)) := by
  intro l
  induction l with
  | nil =>
    intro acc _ _
    simp only [addUnseen, List.map_nil, List.append_nil]
    rfl
  | cons it rest ih =>
    intro acc hdisj hnodup
    have hn : alistGet acc it = none := hdisj it (List.mem_cons_self _ _)
    simp only [addUnseen, hn, Option.isSome_none, Bool.false_eq_true, if_false,
      pyDiv_ok _ hd, except_bind_ok]
    rcases List.nodup_cons.mp hnodup with ⟨hnotmem, hnodup2⟩
    have hdisj2 : ∀ it2 ∈ rest, alistGet (acc ++ [(it, alpha / d)]) it2 = none := by
      intro it2 hit2
      rw [alistGet_append_of_none _ (hdisj it2 (List.mem_cons_of_mem _ hit2))]
      have hne : it ≠ it2 := fun hc => hnotmem (hc ▸ hit2)
      simp [alistGet, hne]
    rw [ih (acc ++ [(it, alpha / d)]) hdisj2 hnodup2]
    simp

/-- The denominator of the first Dirichlet smoothing stage. -/
def dsDenom (alpha : ℚ) (scores : List (String × ℚ)) (n : ℕ) : ℚ :=
  (scores.map Prod.snd).sum * 100 + (n : ℚ) * alpha

/-- The smoothed dictionary before renormalization. -/
def dsStage (alpha : ℚ) (scores : List (String × ℚ)) (n : ℕ) : List (String × ℚ) :=
  (scores.map fun p => (p.1, (p.2 * 100 + alpha) / dsDenom alpha scores n)) ++
  (intentTaxonomy.map fun it => (it, alpha / dsDenom alpha scores n))

/-- The renormalized smoothed dictionary. -/
def dsFinal (alpha : ℚ) (scores : List (String × ℚ)) (n : ℕ) : List (String × ℚ) :=
  (dsStage alpha scores n).map fun p =>
    (p.1, p.2 / ((dsStage alpha scores n).map Prod.snd).sum)

theorem dirichletSmooth_eval (alpha : ℚ) (scores : List (String × ℚ)) (n : ℕ)
    (hD : dsDenom alpha scores n ≠ 0)
    (hdisj : ∀ it ∈ intentTaxonomy, alistGet scores it = none)
    (hT : ((dsStage alpha scores n).map Prod.snd).sum ≠ 0) :
    dirichletSmooth alpha scores n = .ok (dsFinal alpha scores n) := by
  have hnodup : intentTaxonomy.Nodup := by decide
  simp only [dirichletSmooth]
  rw [show (scores.map Prod.snd).sum * 100 + (n : ℚ) * alpha = dsDenom alpha scores n from rfl]
  rw [smoothScores_eval alpha hD, except_bind_ok]
  have hdisj2 : ∀ it ∈ intentTaxonomy,
      alistGet (scores.map fun p => (p.1, (p.2 * 100 + alpha) / dsDenom alpha scores n)) it =
        none := by
    intro it hit
    exact alistGet_map_snd _ (hdisj it hit)
  rw [addUnseen_eval alpha hD intentTaxonomy _ hdisj2 hnodup, except_bind_ok]
  rw [show ((scores.map fun p => (p.1, (p.2 * 100 + alpha) / dsDenom alpha scores n)) ++
      intentTaxonomy.map fun it => (it, alpha / dsDenom alpha scores n)) =
      dsStage alpha scores n from rfl]
  rw [divideAll_eval hT]
  rfl

set_option maxHeartbeats 2000000 in
theorem computeIntent_empty_eval :
    computeIntentSignals simpleRealFuns exDefault 0 "sku_123" {} 0 = .ok c3EmptyBundle := by
  have hsm : dirichletSmooth (1/2) [] 12 = .ok (intentTaxonomy.map fun it => (it, 1/12)) := by
    have he := dirichletSmooth_eval (1/2) [] 12
      (by norm_num [dsDenom])
      (fun it _ => rfl)
      (by norm_num [dsStage, dsDenom, intentTaxonomy])
    rw [he]
    norm_num [dsFinal, dsStage, dsDenom, intentTaxonomy]
  simp only [computeIntentSignals]
  norm_num [extractFromOrders, extractFromReturns, extractFromBehavior, extractFromText,
    extractFromChannel, textProbsPass, dedupFirst, dedupAux, dKeys, exDefault,
    except_bind_ok, except_pure_eq_ok, hsm, computeConfidence, confContrib, min_def,
    dHas, dGetD, alistGet, sigSortDesc, sigInsert, intentTaxonomy, c3EmptyBundle,
    computeTimeWeight, simpleRealFuns]

theorem dAdd_keys {d : List (String × ℚ)} {k0 : String} {v : ℚ} {k : String}
    (h : k ∈ dKeys (dAdd d k0 v)) : k = k0 ∨ k ∈ dKeys d := by
  induction d with
  | nil =>
    simp [dAdd, dKeys] at h
    exact Or.inl h
  | cons p rest ih =>
    rcases p with ⟨k2, v2⟩
    by_cases h2 : k2 = k0
    · rw [dAdd, if_pos h2] at h
      simp only [dKeys, List.map_cons] at h ⊢
      exact Or.inr h
    · rw [dAdd, if_neg h2] at h
      simp only [dKeys, List.map_cons, List.mem_cons] at h ⊢
      rcases h with h3 | h3
      · exact Or.inr (Or.inl h3)
      · rcases ih h3 with h4 | h4
        · exact Or.inl h4
        · exact Or.inr (Or.inr h4)

theorem dKeys_map_snd (l : List (String × ℚ)) (g : String × ℚ → ℚ) :
    dKeys (l.map fun p => (p.1, g p)) = dKeys l := by
  simp only [dKeys, List.map_map]
  rfl

theorem foldl_keys_subset {β : Type} (f : List (String × ℚ) → β → List (String × ℚ))
    (S : List String) :
    ∀ (l : List β),
      (∀ d b, b ∈ l → ∀ k, k ∈ dKeys (f d b) → k ∈ dKeys d ∨ k ∈ S) →
      ∀ (d0 : List (String × ℚ)) (k : String),
        k ∈ dKeys (l.foldl f d0) → k ∈ dKeys d0 ∨ k ∈ S := by
  intro l
  induction l with
  | nil => intro _ d0 k hk; exact Or.inl hk
  | cons b bs ih =>
    intro hf d0 k hk
    have hf2 : ∀ d b2, b2 ∈ bs → ∀ k2, k2 ∈ dKeys (f d b2) → k2 ∈ dKeys d ∨ k2 ∈ S :=
      fun d b2 hb2 => hf d b2 (List.mem_cons_of_mem _ hb2)
    rcases ih hf2 (f d0 b) k hk with hk2 | hk2
    · exact hf d0 b (List.mem_cons_self _ _) k hk2
    · exact Or.inr hk2

theorem analyzeBundle_keys (items : List OrderItem) :
    ∀ p ∈ analyzeBundle items, p.1 ∈ intentTaxonomy := by
  intro p hp
  simp only [analyzeBundle] at hp
  split_ifs at hp <;> simp [dAdd] at hp <;>
    first
      | (rcases hp with rfl | rfl | rfl <;> decide)
      | (rcases hp with rfl | rfl <;> decide)
      | (rcases hp with rfl <;> decide)

theorem extractFromOrders_keys (pid : String) (orders : List Order) :
    ∀ k, k ∈ dKeys (extractFromOrders pid orders) → k ∈ intentTaxonomy := by
  intro k hk
  unfold extractFromOrders at hk
  by_cases h0 : orders.length = 0
  · rw [if_pos h0] at hk
    simp [dKeys] at hk
  · rw [if_neg h0] at hk
    rw [dKeys_map_snd] at hk
    have hstep : ∀ d b, b ∈ orders → ∀ k2,
        k2 ∈ dKeys ((fun d (order : Order) =>
          let d1 := if order.gift_wrap || giftMessageTruthy order.gift_message then
              dAdd d "gift" 1
            else d
          let d2 := if isHolidaySeason order.created_at then dAdd d1 "gift" (3/10) else d1
          match order.items with
          | some items => (analyzeBundle items).foldl (fun dd p => dAdd dd p.1 p.2) d2
          | none => d2) d b) →
        k2 ∈ dKeys d ∨ k2 ∈ intentTaxonomy := by
      intro d b _ k2 hk2
      simp only at hk2
      have hifs : ∀ k3, k3 ∈ dKeys (if isHolidaySeason b.created_at then
            dAdd (if b.gift_wrap || giftMessageTruthy b.gift_message then
              dAdd d "gift" 1 else d) "gift" (3/10)
          else (if b.gift_wrap || giftMessageTruthy b.gift_message then
            dAdd d "gift" 1 else d)) →
          k3 ∈ dKeys d ∨ k3 ∈ intentTaxonomy := by
        intro k3 hk3
        split_ifs at hk3 <;>
          first
            | exact Or.inl hk3
            | (rcases dAdd_keys hk3 with h4 | h4
               · right; rw [h4]; decide
               · first
                   | exact Or.inl h4
                   | (rcases dAdd_keys h4 with h5 | h5
                      · right; rw [h5]; decide
                      · exact Or.inl h5))
      rcases hb : b.items with _ | items <;> simp only [hb] at hk2
      · exact hifs k2 hk2
      · have hinner := foldl_keys_subset (fun dd p => dAdd dd p.1 p.2) intentTaxonomy
          (analyzeBundle items)
          (by
            intro dd p hp k3 hk3
            rcases dAdd_keys hk3 with h4 | h4
            · right; rw [h4]; exact analyzeBundle_keys items p hp
            · exact Or.inl h4) _ k2 hk2
        rcases hinner with h4 | h4
        · exact hifs k2 h4
        · exact Or.inr h4
    rcases foldl_keys_subset _ intentTaxonomy orders hstep [] k hk with h4 | h4
    · simp [dKeys] at h4
    · exact h4

theorem extractFromReturns_keys (pid : String) (returns : List ReturnRec) :
    ∀ k, k ∈ dKeys (extractFromReturns pid returns) → k ∈ intentTaxonomy := by
  intro k hk
  unfold extractFromReturns at hk
  rcases foldl_keys_subset _ intentTaxonomy returns
    (by
      intro d b _ k2 hk2
      split_ifs at hk2 <;>
        first
          | exact Or.inl hk2
          | (rcases dAdd_keys hk2 with h4 | h4
             · right; rw [h4]; decide
             · first
                 | exact Or.inl h4
                 | (rcases dAdd_keys h4 with h5 | h5
                    · right; rw [h5]; decide
                    · exact Or.inl h5))) [] k hk with h4 | h4
  · simp [dKeys] at h4
  · exact h4

theorem extractFromBehavior_keys (RF : RealFuns) (pid : String) (events : List Event) :
    ∀ k, k ∈ dKeys (extractFromBehavior RF pid events) → k ∈ intentTaxonomy := by
  intro k hk
  simp only [extractFromBehavior] at hk
  have hfold : ∀ k2, k2 ∈ dKeys (events.foldl (fun d e =>
      if e.type == "view_size_guide" then dAdd (dAdd d "fashion" (3/10)) "sport" (2/10)
      else if e.type == "view_3d" then dAdd (dAdd d "fashion" (2/10)) "luxury" (1/10)
      else if e.type == "use_configurator" then
        dAdd (dAdd d "professional_use" (3/10)) "hobby" (2/10)
      else if e.type == "compare_products" then dAdd d "value" (2/10)
      else if e.type == "read_guide" then
        match e.guide_type with
        | some g =>
          if strContains (strToLower g) "running" then dAdd d "running" (5/10)
          else if strContains (strToLower g) "basketball" then dAdd d "basketball" (5/10)
          else d
        | none => d
      else d) []) → k2 ∈ intentTaxonomy := by
    intro k2 hk2
    rcases foldl_keys_subset _ intentTaxonomy events
      (by
        intro d b _ k3 hk3
        rcases hg : b.guide_type with _ | g <;> simp only [hg] at hk3 <;>
          split_ifs at hk3 <;>
          first
            | exact Or.inl hk3
            | (rcases dAdd_keys hk3 with h4 | h4
               · right; rw [h4]; decide
               · first
                   | exact Or.inl h4
                   | (rcases dAdd_keys h4 with h5 | h5
                      · right; rw [h5]; decide
                      · exact Or.inl h5))) [] k2 hk2 with h4 | h4
    · simp [dKeys] at h4
    · exact h4
  by_cases hlen : events.length > 0
  · rw [if_pos hlen, dKeys_map_snd] at hk
    exact hfold k hk
  · rw [if_neg hlen] at hk
    exact hfold k hk

theorem extractFromChannel_keys (pid : String) (acquisitions : List Acquisition) :
    ∀ k, k ∈ dKeys (extractFromChannel pid acquisitions) → k ∈ intentTaxonomy := by
  intro k hk
  simp only [extractFromChannel] at hk
  have hfold : ∀ k2, k2 ∈ dKeys (acquisitions.foldl (fun d acq =>
      if !(strToLower acq.utm_term == "") then
        intentTaxonomy.foldl (fun dd it =>
          if strContains (strToLower acq.utm_term) (underscoreToSpace it) then
            dAdd dd it (1/2)
          else dd)
          (if strContains (strToLower acq.utm_campaign) "gift" ||
              strContains (strToLower acq.utm_campaign) "holiday" then dAdd d "gift" 1
           else if strContains (strToLower acq.utm_campaign) "sport" ||
              strContains (strToLower acq.utm_campaign) "athletic" then dAdd d "sport" 1
           else if strContains (strToLower acq.utm_campaign) "professional" ||
              strContains (strToLower acq.utm_campaign) "business" then
             dAdd d "professional_use" 1
           else d)
      else
        (if strContains (strToLower acq.utm_campaign) "gift" ||
            strContains (strToLower acq.utm_campaign) "holiday" then dAdd d "gift" 1
         else if strContains (strToLower acq.utm_campaign) "sport" ||
            strContains (strToLower acq.utm_campaign) "athletic" then dAdd d "sport" 1
         else if strContains (strToLower acq.utm_campaign) "professional" ||
            strContains (strToLower acq.utm_campaign) "business" then
           dAdd d "professional_use" 1
         else d)) []) → k2 ∈ intentTaxonomy := by
    intro k2 hk2
    rcases foldl_keys_subset _ intentTaxonomy acquisitions
      (by
        intro d b _ k3 hk3
        have hcamp : ∀ (dd : List (String × ℚ)) (k4 : String),
            k4 ∈ dKeys (if strContains (strToLower b.utm_campaign) "gift" ||
                strContains (strToLower b.utm_campaign) "holiday" then dAdd dd "gift" 1
              else if strContains (strToLower b.utm_campaign) "sport" ||
                strContains (strToLower b.utm_campaign) "athletic" then dAdd dd "sport" 1
              else if strContains (strToLower b.utm_campaign) "professional" ||
                strContains (strToLower b.utm_campaign) "business" then
                dAdd dd "professional_use" 1
              else dd) → k4 ∈ dKeys dd ∨ k4 ∈ intentTaxonomy := by
          intro dd k4 hk4
          split_ifs at hk4 <;>
            first
              | exact Or.inl hk4
              | (rcases dAdd_keys hk4 with h4 | h4
                 · right; rw [h4]; decide
                 · exact Or.inl h4)
        by_cases hterm : (!(strToLower b.utm_term == "")) = true
        · rw [if_pos hterm] at hk3
          rcases foldl_keys_subset _ intentTaxonomy intentTaxonomy
            (by
              intro dd it hit k4 hk4
              split_ifs at hk4
              · rcases dAdd_keys hk4 with h4 | h4
                · right; rw [h4]; exact hit
                · exact Or.inl h4
              · exact Or.inl hk4) _ k3 hk3 with h4 | h4
          · exact hcamp _ _ h4
          · exact Or.inr h4
        · rw [if_neg hterm] at hk3
          exact hcamp _ _ hk3) [] k2 hk2 with h4 | h4
    · simp [dKeys] at h4
    · exact h4
  by_cases hlen : acquisitions.length > 0
  · rw [if_pos hlen, dKeys_map_snd] at hk
    exact hfold k hk
  · rw [if_neg hlen] at hk
    exact hfold k hk

theorem addProbs_keys {w : ℚ} {probs : List (String × ℚ)} :
    ∀ {d : List (String × ℚ)} {k : String}, k ∈ dKeys (addProbs w d probs) →
      k ∈ dKeys d ∨ k ∈ probs.map Prod.fst := by
  induction probs with
  | nil => intro d k hk; exact Or.inl hk
  | cons p ps ih =>
    intro d k hk
    rcases ih hk with h2 | h2
    · rcases dAdd_keys h2 with h3 | h3
      · right
        rw [h3]
        exact List.mem_cons_self _ _
      · exact Or.inl h3
    · exact Or.inr (List.mem_cons_of_mem _ h2)

theorem textProbsPass_keys {texts : List TextItem} :
    ∀ {d out : List (String × ℚ)}, textProbsPass texts d = .ok out →
      ∀ k ∈ dKeys out, k ∈ dKeys d ∨ k ∈ textProbKeys texts := by
  induction texts with
  | nil =>
    intro d out h k hk
    replace h := Except.ok.inj h
    subst h
    exact Or.inl hk
  | cons t ts ih =>
    intro d out h k hk
    simp only [textProbsPass] at h
    rcases hp : t.intent_probs with _ | probs
    · rw [hp] at h
      cases h
    · rw [hp] at h
      have htk : textProbKeys (t :: ts) = probs.map Prod.fst ++ textProbKeys ts := by
        simp [textProbKeys, hp]
      rcases ih h k hk with h2 | h2
      · rcases addProbs_keys h2 with h3 | h3
        · exact Or.inl h3
        · right
          rw [htk]
          exact List.mem_append.mpr (Or.inl h3)
      · right
        rw [htk]
        exact List.mem_append.mpr (Or.inr h2)

theorem textKeywordFold_keys (texts : List TextItem) :
    ∀ k, k ∈ dKeys (texts.foldl (fun d t =>
      intentKeywords.foldl (fun dd kw =>
        let nMatches : ℚ := ((kw.2.filter fun k2 => strContains (strToLower t.text) k2).length : ℚ)
        if nMatches > 0 then dAdd dd kw.1 (nMatches * textWeight t) else dd) d) []) →
      k ∈ intentTaxonomy := by
  intro k hk
  have hstep : ∀ (d : List (String × ℚ)) (b : TextItem), b ∈ texts → ∀ k2,
      k2 ∈ dKeys (intentKeywords.foldl (fun dd kw =>
        let nMatches : ℚ := ((kw.2.filter fun k3 => strContains (strToLower b.text) k3).length : ℚ)
        if nMatches > 0 then dAdd dd kw.1 (nMatches * textWeight b) else dd) d) →
      k2 ∈ dKeys d ∨ k2 ∈ intentTaxonomy := by
    intro d b _ k2 hk2
    have hinner : ∀ (dd : List (String × ℚ)) (kw : String × List String),
        kw ∈ intentKeywords → ∀ k3,
        k3 ∈ dKeys ((fun dd (kw : String × List String) =>
          let nMatches : ℚ := ((kw.2.filter fun k4 => strContains (strToLower b.text) k4).length : ℚ)
          if nMatches > 0 then dAdd dd kw.1 (nMatches * textWeight b) else dd) dd kw) →
        k3 ∈ dKeys dd ∨ k3 ∈ intentTaxonomy := by
      intro dd kw hkw k3 hk3
      simp only at hk3
      split_ifs at hk3
      · rcases dAdd_keys hk3 with h4 | h4
        · right
          rw [h4]
          exact (show ∀ kw2 ∈ intentKeywords, kw2.1 ∈ intentTaxonomy from by decide) kw hkw
        · exact Or.inl h4
      · exact Or.inl hk3
    rcases foldl_keys_subset _ intentTaxonomy intentKeywords hinner d k2 hk2 with h4 | h4
    · exact Or.inl h4
    · exact Or.inr h4
  rcases foldl_keys_subset _ intentTaxonomy texts hstep [] k hk with h4 | h4
  · simp [dKeys] at h4
  · exact h4

theorem except_split_ok {ε α β : Type} {x : Except ε α} {f : α → Except ε β} {r : β}
    (h : (x >>= f) = .ok r) : ∃ a, x = .ok a ∧ f a = .ok r := by
  cases x with
  | ok a => exact ⟨a, rfl, h⟩
  | error e =>
    rw [except_bind_err] at h
    cases h

theorem foldl_const {α β : Type} (f : α → β → α) (l : List β)
    (h : ∀ a b, b ∈ l → f a b = a) : ∀ a, l.foldl f a = a := by
  induction l with
  | nil => intro a; rfl
  | cons x t ih =>
    intro a
    rw [List.foldl_cons, h a x (List.mem_cons_self _ _)]
    exact ih (fun a2 b hb => h a2 b (List.mem_cons_of_mem _ hb)) a

theorem map_fst_pairing {α β : Type} (l : List α) (g : α → β) :
    (l.map fun i => (i, g i)).map Prod.fst = l := by
  induction l with
  | nil => rfl
  | cons a t ih => simp [ih]

theorem dedupAux_subset : ∀ {l seen : List String} {k : String},
    k ∈ dedupAux seen l → k ∈ l := by
  intro l
  induction l with
  | nil => intro seen k hk; simp [dedupAux] at hk
  | cons a t ih =>
    intro seen k hk
    rw [dedupAux] at hk
    split_ifs at hk
    · exact List.mem_cons_of_mem _ (ih hk)
    · rcases List.mem_cons.mp hk with h | h
      · exact h ▸ List.mem_cons_self _ _
      · exact List.mem_cons_of_mem _ (ih h)

theorem dedupFirst_subset {l : List String} {k : String}
    (h : k ∈ dedupFirst l) : k ∈ l := dedupAux_subset h

theorem extractFromText_keys {pid : String} {texts : List TextItem}
    {out : List (String × ℚ)} (h : extractFromText pid texts = .ok out) :
    ∀ k ∈ dKeys out, k ∈ intentTaxonomy ∨ k ∈ textProbKeys texts := by
  intro k hk
  cases texts with
  | nil =>
    replace h := Except.ok.inj h
    subst h
    simp [dKeys] at hk
  | cons t0 ts =>
    simp only [extractFromText] at h
    by_cases hprob : t0.intent_probs.isSome = true
    · rw [if_pos hprob] at h
      rcases except_split_ok h with ⟨s2, hs2, hcont⟩
      have hs2keys : k ∈ dKeys s2 → k ∈ intentTaxonomy ∨ k ∈ textProbKeys (t0 :: ts) := by
        intro hk2
        rcases textProbsPass_keys hs2 k hk2 with h3 | h3
        · exact Or.inl (textKeywordFold_keys (t0 :: ts) k h3)
        · exact Or.inr h3
      try simp only at hcont
      split_ifs at hcont
      · replace hcont := Except.ok.inj hcont
        subst hcont
        rw [dKeys_map_snd] at hk
        exact hs2keys hk
      · replace hcont := Except.ok.inj hcont
        subst hcont
        exact hs2keys hk
    · rw [if_neg hprob] at h
      rcases except_split_ok h with ⟨s2, hs2, hcont⟩
      replace hs2 := Except.ok.inj hs2
      subst hs2
      try simp only at hcont
      split_ifs at hcont
      · replace hcont := Except.ok.inj hcont
        subst hcont
        rw [dKeys_map_snd] at hk
        exact Or.inl (textKeywordFold_keys (t0 :: ts) k hk)
      · replace hcont := Except.ok.inj hcont
        subst hcont
        exact Or.inl (textKeywordFold_keys (t0 :: ts) k hk)

/-- C5 (corrected): every intent emitted by `compute_intent_signals` lies in
the closed taxonomy or among the keys of some text item's `intent_probs` map;
out-of-taxonomy classifier keys are NOT dropped, so only this weaker union
bound holds. -/
theorem claim5_intents_in_taxonomy_or_text_probs (RF : RealFuns)
    (ex : IntentExtractor) (now : ℤ) (productId : String) (ds : DataSources)
    (sinceDays : ℚ) (sigs : List IntentSignal)
    (h : computeIntentSignals RF ex now productId ds sinceDays = .ok sigs) :
    ∀ s ∈ sigs, s.intent ∈ intentTaxonomy ∨
      s.intent ∈ textProbKeys (ds.texts.getD []) := by
  simp only [computeIntentSignals] at h
  cases ht : extractFromText productId (ds.texts.getD []) with
  | error e =>
    rw [ht, except_bind_err] at h
    cases h
  | ok textIntents =>
    rw [ht, except_bind_ok] at h
    intro s hs
    rcases keysMem_of_smooth_bind (fun p => rfl) h s hs with h2 | h2
    · rw [map_fst_pairing] at h2
      replace h2 := dedupFirst_subset h2
      rcases List.mem_append.mp h2 with h3 | h3
      · rcases List.mem_append.mp h3 with h4 | h4
        · rcases List.mem_append.mp h4 with h5 | h5
          · rcases List.mem_append.mp h5 with h6 | h6
            · exact Or.inl (extractFromOrders_keys _ _ _ h6)
            · exact Or.inl (extractFromReturns_keys _ _ _ h6)
          · exact Or.inl (extractFromBehavior_keys _ _ _ _ h5)
        · exact extractFromText_keys ht s.intent h4
      · exact Or.inl (extractFromChannel_keys _ _ _ h3)
    · exact Or.inl h2

theorem textFilter_c5_empty : ∀ kw ∈ intentKeywords,
    kw.2.filter (fun k2 => strContains (strToLower c5Text.text) k2) = [] := by
  decide

theorem textWeight_c5 : textWeight c5Text = 1 := by decide

theorem extractFromText_c5 :
    extractFromText "sku_123" [c5Text] = .ok [("treasure_hunt", 1)] := by
  have hfold : ∀ d : List (String × ℚ), intentKeywords.foldl (fun dd kw =>
      let nMatches : ℚ :=
        ((kw.2.filter fun k2 => strContains (strToLower c5Text.text) k2).length : ℚ)
      if nMatches > 0 then dAdd dd kw.1 (nMatches * textWeight c5Text) else dd) d = d := by
    intro d
    refine foldl_const _ _ ?_ d
    intro a b hb
    simp only [textFilter_c5_empty b hb]
    norm_num
  simp only [extractFromText, List.foldl_cons, List.foldl_nil]
  rw [hfold]
  norm_num [textProbsPass, addProbs, dAdd, textWeight_c5, except_bind_ok,
    except_pure_eq_ok, (show c5Text.intent_probs = some [("treasure_hunt", (1:ℚ))] from rfl)]

set_option maxHeartbeats 4000000 in
theorem computeIntent_c5_eval :
    computeIntentSignals simpleRealFuns exDefault 0 "sku_123" c5DS 0 = .ok c5Bundle := by
  have hsm : dirichletSmooth (1/2) [("treasure_hunt", 2/5)] 12 =
      .ok (("treasure_hunt", 27/31) :: intentTaxonomy.map fun it => (it, 1/93)) := by
    have he := dirichletSmooth_eval (1/2) [("treasure_hunt", 2/5)] 12
      (by norm_num [dsDenom])
      (by decide)
      (by norm_num [dsStage, dsDenom, intentTaxonomy, alistGet])
    rw [he]
    norm_num [dsFinal, dsStage, dsDenom, intentTaxonomy]
  simp only [computeIntentSignals]
  norm_num [extractFromOrders, extractFromReturns, extractFromBehavior,
    extractFromChannel, extractFromText_c5, c5DS, dedupFirst, dedupAux, dKeys, exDefault,
    except_bind_ok, except_pure_eq_ok, hsm, computeConfidence, confContrib, min_def,
    dHas, dGetD, alistGet, sigSortDesc, sigInsert, intentTaxonomy, c5Bundle,
    computeTimeWeight, simpleRealFuns]
  decide

/-- The C5 counterexample: with a single review whose zero-shot
`intent_probs` names only `treasure_hunt`, the bundle leads with the
out-of-taxonomy intent `treasure_hunt`, which the claim says is dropped. -/
theorem claim5_counterexample :
    computeIntentSignals simpleRealFuns exDefault 0 "sku_123" c5DS 0 = .ok c5Bundle ∧
    "treasure_hunt" ∉ intentTaxonomy ∧
    c5Bundle.map IntentSignal.intent = "treasure_hunt" :: intentTaxonomy :=
  ⟨computeIntent_c5_eval, by decide, by simp [c5Bundle, List.map_map, Function.comp_def]⟩

theorem claim5_witness :
    computeIntentSignals simpleRealFuns exDefault 0 "sku_123" c5DS 0 = .ok c5Bundle ∧
    ∀ s ∈ c5Bundle, s.intent ∈ intentTaxonomy ∨
      s.intent ∈ textProbKeys (c5DS.texts.getD []) :=
  ⟨computeIntent_c5_eval,
   claim5_intents_in_taxonomy_or_text_probs _ _ _ _ _ _ _ computeIntent_c5_eval⟩

theorem claim3_witness :
    computeIntentSignals simpleRealFuns exDefault 0 "sku_123" {} 0 = .ok c3EmptyBundle ∧
    ((c3EmptyBundle.map IntentSignal.share).sum = 1 ∧
      c3EmptyBundle.Pairwise fun a b => b.share ≤ a.share) :=
  ⟨computeIntent_empty_eval,
   claim3_shares_sum_one_and_sorted _ _ _ _ _ _ _ computeIntent_empty_eval⟩

/-- C10: within one bundle every signal carries the identical confidence
value `computeConfidence RF ds`, and that value depends only on the presence
flags and record counts of the five data sources, not on their contents. -/
theorem claim10_confidence_uniform_and_counts_only (RF : RealFuns)
    (ex : IntentExtractor) (now : ℤ) (productId : String) (ds : DataSources)
    (sinceDays : ℚ) (sigs : List IntentSignal)
    (h : computeIntentSignals RF ex now productId ds sinceDays = .ok sigs) :
    (∀ s ∈ sigs, s.confidence = computeConfidence RF ds) ∧
    (∀ ds2 : DataSources,
      ds2.orders.isSome = ds.orders.isSome →
      (ds2.orders.getD []).length = (ds.orders.getD []).length →
      ds2.events.isSome = ds.events.isSome →
      (ds2.events.getD []).length = (ds.events.getD []).length →
      ds2.texts.isSome = ds.texts.isSome →
      (ds2.texts.getD []).length = (ds.texts.getD []).length →
      ds2.returns.isSome = ds.returns.isSome →
      (ds2.returns.getD []).length = (ds.returns.getD []).length →
      ds2.acquisitions.isSome = ds.acquisitions.isSome →
      (ds2.acquisitions.getD []).length = (ds.acquisitions.getD []).length →
      computeConfidence RF ds2 = computeConfidence RF ds) := by
  constructor
  · simp only [computeIntentSignals] at h
    cases ht : extractFromText productId (ds.texts.getD []) with
    | error e =>
      rw [ht, except_bind_err] at h
      cases h
    | ok textIntents =>
      rw [ht, except_bind_ok] at h
      refine confEq_of_smooth_bind ?_ h
      intro p
      rfl
  · intro ds2 h1 h2 h3 h4 h5 h6 h7 h8 h9 h10
    simp only [computeConfidence, confContrib, h1, h2, h3, h4, h5, h6, h7, h8, h9, h10]

theorem claim10_witness :
    computeIntentSignals simpleRealFuns exDefault 0 "sku_123" c5DS 0 = .ok c5Bundle ∧
    (∀ s ∈ c5Bundle, s.confidence = computeConfidence simpleRealFuns c5DS) ∧
    computeConfidence simpleRealFuns c5DS2 = computeConfidence simpleRealFuns c5DS :=
  ⟨computeIntent_c5_eval,
   (claim10_confidence_uniform_and_counts_only _ _ _ _ _ _ _ computeIntent_c5_eval).1,
   (claim10_confidence_uniform_and_counts_only _ _ _ _ _ _ _ computeIntent_c5_eval).2 c5DS2
     rfl rfl rfl rfl rfl rfl rfl rfl rfl rfl⟩

theorem claim8_witness :
    (detectAnomaly c8bEvidence.data (c8bHist (brandKey "trustpilot" "acme.com")) = true ∧
     alistGet (enrichBrand c8bHist 0 c8bOrchestrator "acme.com" none).2 "trustpilot" =
       some c8bFlagged ∧
     c8bFlagged.ttl_hours = 1 ∧ c8bFlagged.data.anomaly_detected = true) ∧
    (detectAnomaly c8Evidence.data (c8Hist (productKey "google_seller_ratings" "sku_1")) = true ∧
     alistGet (enrichProduct 0 c8Orchestrator "sku_1" none).2 "google_seller_ratings" =
       some c8Evidence ∧
     c8Evidence = c8Evidence) := by
  have hdetb : detectAnomaly c8bEvidence.data (c8bHist (brandKey "trustpilot" "acme.com")) =
      true := by
    norm_num [detectAnomaly, c8bEvidence, c8bHist, brandKey]
  have hresb : alistGet (enrichBrand c8bHist 0 c8bOrchestrator "acme.com" none).2 "trustpilot" =
      some c8bFlagged := by
    norm_num [enrichBrand, processBrandProvider, c8bOrchestrator, c8bProvider, c8bEvidence,
      c8bHist, c8bFlagged, brandKey, alistGet, alistSet, detectAnomaly, validateFreshness]
  have hdetp : detectAnomaly c8Evidence.data
      (c8Hist (productKey "google_seller_ratings" "sku_1")) = true := by
    norm_num [detectAnomaly, c8Evidence, c8Hist, productKey]
  exact ⟨⟨hdetb,
      hresb,
      claim8_brand_flags_anomalies_product_does_not.1 c8bHist 0 c8bOrchestrator "acme.com"
        none "trustpilot" c8bProvider c8bEvidence c8bFlagged rfl rfl rfl hdetb hresb⟩,
    ⟨hdetp,
      rfl,
      claim8_brand_flags_anomalies_product_does_not.2 c8Hist 0 c8Orchestrator "sku_1" none
        "google_seller_ratings" c8Provider c8Evidence c8Evidence rfl rfl rfl hdetp rfl⟩⟩

theorem sigmoid_pos (RF : RealFuns) (x : ℚ) : 0 < sigmoid RF x := by
  have h := RF.exp_pos (-x)
  unfold sigmoid
  positivity

theorem sigmoid_lt_one (RF : RealFuns) (x : ℚ) : sigmoid RF x < 1 := by
  have h := RF.exp_pos (-x)
  unfold sigmoid
  rw [div_lt_one (by linarith)]
  linarith

theorem round3_mem {x : ℚ} (h0 : 0 ≤ x) (h1 : x ≤ 1) :
    0 ≤ round3 x ∧ round3 x ≤ 1 := by
  unfold round3
  rw [round_eq]
  constructor
  · apply div_nonneg _ (by norm_num)
    have h2 : (0:ℤ) ≤ ⌊x * 1000 + 1/2⌋ := Int.floor_nonneg.mpr (by linarith)
    exact_mod_cast h2
  · rw [div_le_one (by norm_num)]
    have h2 : (⌊x * 1000 + 1/2⌋ : ℚ) ≤ x * 1000 + 1/2 := Int.floor_le _
    have h3 : (⌊x * 1000 + 1/2⌋ : ℚ) < 1001 := by linarith
    have h4 : ⌊x * 1000 + 1/2⌋ < 1001 := by exact_mod_cast h3
    have h5 : ⌊x * 1000 + 1/2⌋ ≤ 1000 := by omega
    exact_mod_cast h5

theorem calcFit_bounds (RF : RealFuns) (now : ℚ) (pd : ProductData) :
    0 ≤ (calculateFitHintScore RF now pd).1 ∧ (calculateFitHintScore RF now pd).1 ≤ 1 :=
  ⟨(sigmoid_pos _ _).le, (sigmoid_lt_one _ _).le⟩

theorem calcPerf_bounds (RF : RealFuns) (now : ℚ) (pd : ProductData) (category : String) :
    0 ≤ (calculatePerformanceScore RF now pd category).1 ∧
      (calculatePerformanceScore RF now pd category).1 ≤ 1 :=
  ⟨le_min (by norm_num) (sigmoid_pos _ _).le, min_le_left _ _⟩

theorem calcUniq_bounds (RF : RealFuns) (now : ℚ) (pd : ProductData) :
    0 ≤ (calculateUniquenessScore RF now pd).1 ∧ (calculateUniquenessScore RF now pd).1 ≤ 1 :=
  ⟨(sigmoid_pos _ _).le, (sigmoid_lt_one _ _).le⟩

theorem calcCraft_bounds (RF : RealFuns) (now : ℚ) (pd : ProductData) :
    0 ≤ (calculateCraftsmanshipScore RF now pd).1 ∧
      (calculateCraftsmanshipScore RF now pd).1 ≤ 1 :=
  ⟨(sigmoid_pos _ _).le, (sigmoid_lt_one _ _).le⟩

theorem calcInn_bounds (RF : RealFuns) (now : ℚ) (pd : ProductData) :
    0 ≤ (calculateInnovationScore RF now pd).1 ∧ (calculateInnovationScore RF now pd).1 ≤ 1 :=
  ⟨(sigmoid_pos _ _).le, (sigmoid_lt_one _ _).le⟩

theorem calcRel_score_bounds {RF : RealFuns} {now : ℚ} {pd : ProductData}
    {p : ℚ × List KPIEvidence} (h : calculateReliabilityScore RF now pd = .ok p) :
    0 ≤ p.1 ∧ p.1 ≤ 1 := by
  simp only [calculateReliabilityScore] at h
  rcases except_split_ok h with ⟨a, _, h⟩
  rcases except_split_ok h with ⟨b, _, h⟩
  replace h := Except.ok.inj h
  subst h
  exact ⟨(sigmoid_pos _ _).le, (sigmoid_lt_one _ _).le⟩

theorem calcSat_score_bounds {RF : RealFuns} {now : ℚ} {pd : ProductData}
    {p : ℚ × List KPIEvidence} (h : calculateOwnerSatisfactionScore RF now pd = .ok p) :
    0 ≤ p.1 ∧ p.1 ≤ 1 := by
  simp only [calculateOwnerSatisfactionScore] at h
  rcases except_split_ok h with ⟨a, _, h⟩
  replace h := Except.ok.inj h
  subst h
  exact ⟨le_min (by norm_num) (sigmoid_pos _ _).le, min_le_left _ _⟩

theorem calcSus_score_bounds {RF : RealFuns} {now : ℚ} {pd : ProductData}
    {p : ℚ × List KPIEvidence} (h : calculateSustainabilityScore RF now pd = .ok p)
    (hrec : 0 ≤ pd.recycled_content_percent.getD 0)
    (hsup : 0 ≤ pd.supply_chain_transparency.getD 0) :
    0 ≤ p.1 ∧ p.1 ≤ 1 := by
  simp only [calculateSustainabilityScore] at h
  rcases except_split_ok h with ⟨a, _, h⟩
  replace h := Except.ok.inj h
  subst h
  refine ⟨le_min (by norm_num) ?_, min_le_left _ _⟩
  have t1 : (0:ℚ) ≤ min 1 ((((pd.sustainability_certifications.getD []).length : ℕ) : ℚ) / 3) * (3/10) := by
    apply mul_nonneg _ (by norm_num)
    exact le_min (by norm_num) (by positivity)
  have t2 : (0:ℚ) ≤ pd.recycled_content_percent.getD 0 / 100 * (25/100) :=
    mul_nonneg (div_nonneg hrec (by norm_num)) (by norm_num)
  have t3 : (0:ℚ) ≤ max 0 (1 - a) * (2/10) := mul_nonneg (le_max_left _ _) (by norm_num)
  have t4 : (0:ℚ) ≤ (if pd.sustainable_packaging.getD false then (1:ℚ) else 0) * (1/10) := by
    split_ifs <;> norm_num
  have t5 : (0:ℚ) ≤ pd.supply_chain_transparency.getD 0 * (15/100) :=
    mul_nonneg hsup (by norm_num)
  linarith

theorem calcRel_ok_pair (RF : RealFuns) (pd : ProductData) (now now2 : ℚ)
    (h1 : pd.category_rma_avg.getD 5 ≠ 0) :
    ∃ p p2, calculateReliabilityScore RF now pd = .ok p ∧
      calculateReliabilityScore RF now2 pd = .ok p2 ∧ p.1 = p2.1 := by
  simp only [calculateReliabilityScore, pyDiv_ok _ h1,
    pyDiv_ok _ (mul_ne_zero h1 two_ne_zero), except_bind_ok]
  exact ⟨_, _, rfl, rfl, rfl⟩

theorem calcSat_ok_pair (RF : RealFuns) (pd : ProductData) (now now2 : ℚ)
    (h2 : pd.review_count_verified.getD 0 * (3/2) +
      (max (pd.review_count_total.getD 1) 1 - pd.review_count_verified.getD 0) ≠ 0) :
    ∃ p p2, calculateOwnerSatisfactionScore RF now pd = .ok p ∧
      calculateOwnerSatisfactionScore RF now2 pd = .ok p2 ∧ p.1 = p2.1 := by
  simp only [calculateOwnerSatisfactionScore, pyDiv_ok _ h2, except_bind_ok]
  exact ⟨_, _, rfl, rfl, rfl⟩

theorem calcSus_ok_pair (RF : RealFuns) (pd : ProductData) (now now2 : ℚ)
    (h3 : pd.category_avg_carbon_kg.getD 10 ≠ 0) :
    ∃ p p2, calculateSustainabilityScore RF now pd = .ok p ∧
      calculateSustainabilityScore RF now2 pd = .ok p2 ∧ p.1 = p2.1 := by
  simp only [calculateSustainabilityScore, pyDiv_ok _ h3, except_bind_ok]
  exact ⟨_, _, rfl, rfl, rfl⟩

theorem calcPerf_score_time (RF : RealFuns) (pd : ProductData) (category : String)
    (now now2 : ℚ) :
    (calculatePerformanceScore RF now pd category).1 =
      (calculatePerformanceScore RF now2 pd category).1 := by
  simp only [calculatePerformanceScore]
  split_ifs <;> rfl

theorem calcAll_ok (RF : RealFuns) (now : ℚ) (pd : ProductData) (category : String)
    (h1 : pd.category_rma_avg.getD 5 ≠ 0)
    (h2 : pd.review_count_verified.getD 0 * (3/2) +
      (max (pd.review_count_total.getD 1) 1 - pd.review_count_verified.getD 0) ≠ 0)
    (h3 : pd.category_avg_carbon_kg.getD 10 ≠ 0) :
    ∃ sig, calculateAllSoftSignals RF now pd category = .ok sig := by
  obtain ⟨pr, _, hr, _, _⟩ := calcRel_ok_pair RF pd now now h1
  obtain ⟨ps, _, hs, _, _⟩ := calcSat_ok_pair RF pd now now h2
  obtain ⟨pu, _, hu, _, _⟩ := calcSus_ok_pair RF pd now now h3
  simp only [calculateAllSoftSignals, hr, hs, hu, except_bind_ok]
  exact ⟨_, rfl⟩

theorem calcRel_score_det {RF : RealFuns} {pd : ProductData} {now now2 : ℚ}
    {p p2 : ℚ × List KPIEvidence}
    (h : calculateReliabilityScore RF now pd = .ok p)
    (h2 : calculateReliabilityScore RF now2 pd = .ok p2) : p.1 = p2.1 := by
  simp only [calculateReliabilityScore] at h h2
  rcases except_split_ok h with ⟨a, ha, h⟩
  rcases except_split_ok h with ⟨b, hb, h⟩
  rcases except_split_ok h2 with ⟨a2, ha2, h2⟩
  rcases except_split_ok h2 with ⟨b2, hb2, h2⟩
  rw [ha] at ha2
  replace ha2 := Except.ok.inj ha2
  subst ha2
  rw [hb] at hb2
  replace hb2 := Except.ok.inj hb2
  subst hb2
  replace h := Except.ok.inj h
  replace h2 := Except.ok.inj h2
  rw [← h, ← h2]

theorem calcSat_score_det {RF : RealFuns} {pd : ProductData} {now now2 : ℚ}
    {p p2 : ℚ × List KPIEvidence}
    (h : calculateOwnerSatisfactionScore RF now pd = .ok p)
    (h2 : calculateOwnerSatisfactionScore RF now2 pd = .ok p2) : p.1 = p2.1 := by
  simp only [calculateOwnerSatisfactionScore] at h h2
  rcases except_split_ok h with ⟨a, ha, h⟩
  rcases except_split_ok h2 with ⟨a2, ha2, h2⟩
  rw [ha] at ha2
  replace ha2 := Except.ok.inj ha2
  subst ha2
  replace h := Except.ok.inj h
  replace h2 := Except.ok.inj h2
  rw [← h, ← h2]

theorem calcSus_score_det {RF : RealFuns} {pd : ProductData} {now now2 : ℚ}
    {p p2 : ℚ × List KPIEvidence}
    (h : calculateSustainabilityScore RF now pd = .ok p)
    (h2 : calculateSustainabilityScore RF now2 pd = .ok p2) : p.1 = p2.1 := by
  simp only [calculateSustainabilityScore] at h h2
  rcases except_split_ok h with ⟨a, ha, h⟩
  rcases except_split_ok h2 with ⟨a2, ha2, h2⟩
  rw [ha] at ha2
  replace ha2 := Except.ok.inj ha2
  subst ha2
  replace h := Except.ok.inj h
  replace h2 := Except.ok.inj h2
  rw [← h, ← h2]

/-- C6 (corrected): `calculate_all_soft_signals` is not total — it raises
`ZeroDivisionError` on zero `category_rma_avg`, a zero weighted-rating
denominator or zero `category_avg_carbon_kg` (see `claim6_counterexample`),
and `math.exp` inside `_sigmoid` overflows for inputs of extreme magnitude.
What does hold: whenever two calls on the same `product_data` and category
both return a `SoftSignals` value — at any two wall-clock times and under
any interpretation of `exp` — the eight scores agree: the scores are a
deterministic function of the data and category alone, the clock entering
only evidence timestamps. -/
theorem claim6_scores_deterministic_on_return (RF : RealFuns)
    (pd : ProductData) (category : String) (now now2 : ℚ) (sig sig2 : SoftSignals)
    (h : calculateAllSoftSignals RF now pd category = .ok sig)
    (h2 : calculateAllSoftSignals RF now2 pd category = .ok sig2) :
    sig.fit_hint_score = sig2.fit_hint_score ∧
    sig.reliability_score = sig2.reliability_score ∧
    sig.performance_score = sig2.performance_score ∧
    sig.owner_satisfaction_score = sig2.owner_satisfaction_score ∧
    sig.uniqueness_score = sig2.uniqueness_score ∧
    sig.craftsmanship_score = sig2.craftsmanship_score ∧
    sig.sustainability_score = sig2.sustainability_score ∧
    sig.innovation_score = sig2.innovation_score := by
  simp only [calculateAllSoftSignals] at h h2
  rcases except_split_ok h with ⟨pr, hpr, h⟩
  rcases except_split_ok h with ⟨ps, hps, h⟩
  rcases except_split_ok h with ⟨pu, hpu, h⟩
  rcases except_split_ok h2 with ⟨pr2, hpr2, h2⟩
  rcases except_split_ok h2 with ⟨ps2, hps2, h2⟩
  rcases except_split_ok h2 with ⟨pu2, hpu2, h2⟩
  replace h := Except.ok.inj h
  replace h2 := Except.ok.inj h2
  subst h
  subst h2
  exact ⟨rfl, congrArg round3 (calcRel_score_det hpr hpr2),
    congrArg round3 (calcPerf_score_time RF pd category now now2),
    congrArg round3 (calcSat_score_det hps hps2), rfl, rfl,
    congrArg round3 (calcSus_score_det hpu hpu2), rfl⟩

/-- C7 (corrected): given an `.ok` result and nonnegative recycled-content
and supply-chain inputs, all eight scores lie in `[0, 1]` (seven of them are
sigmoids, hence always in range; the sustainability score is only
lower-bounded when its nonnegative-input conditions hold). -/
theorem claim7_scores_in_unit_interval (RF : RealFuns) (now : ℚ)
    (pd : ProductData) (category : String) (sig : SoftSignals)
    (h : calculateAllSoftSignals RF now pd category = .ok sig)
    (hrec : 0 ≤ pd.recycled_content_percent.getD 0)
    (hsup : 0 ≤ pd.supply_chain_transparency.getD 0) :
    (0 ≤ sig.fit_hint_score ∧ sig.fit_hint_score ≤ 1) ∧
    (0 ≤ sig.reliability_score ∧ sig.reliability_score ≤ 1) ∧
    (0 ≤ sig.performance_score ∧ sig.performance_score ≤ 1) ∧
    (0 ≤ sig.owner_satisfaction_score ∧ sig.owner_satisfaction_score ≤ 1) ∧
    (0 ≤ sig.uniqueness_score ∧ sig.uniqueness_score ≤ 1) ∧
    (0 ≤ sig.craftsmanship_score ∧ sig.craftsmanship_score ≤ 1) ∧
    (0 ≤ sig.sustainability_score ∧ sig.sustainability_score ≤ 1) ∧
    (0 ≤ sig.innovation_score ∧ sig.innovation_score ≤ 1) := by
  simp only [calculateAllSoftSignals] at h
  rcases except_split_ok h with ⟨pr, hpr, h⟩
  rcases except_split_ok h with ⟨ps, hps, h⟩
  rcases except_split_ok h with ⟨pu, hpu, h⟩
  replace h := Except.ok.inj h
  subst h
  have hfit := calcFit_bounds RF now pd
  have hperf := calcPerf_bounds RF now pd category
  have huniq := calcUniq_bounds RF now pd
  have hcraft := calcCraft_bounds RF now pd
  have hinn := calcInn_bounds RF now pd
  have hrel := calcRel_score_bounds hpr
  have hsat := calcSat_score_bounds hps
  have hsus := calcSus_score_bounds hpu hrec hsup
  exact ⟨round3_mem hfit.1 hfit.2, round3_mem hrel.1 hrel.2, round3_mem hperf.1 hperf.2,
    round3_mem hsat.1 hsat.2, round3_mem huniq.1 huniq.2, round3_mem hcraft.1 hcraft.2,
    round3_mem hsus.1 hsus.2, round3_mem hinn.1 hinn.2⟩

/-- The C6 counterexample: `category_avg_carbon_kg = 0` makes
`calculate_all_soft_signals` raise `ZeroDivisionError` instead of returning
a `SoftSignals` value. -/
theorem claim6_counterexample :
    calculateAllSoftSignals simpleRealFuns 0 pd6 "general" =
      .error "ZeroDivisionError: division by zero" := by
  norm_num [calculateAllSoftSignals, calculateReliabilityScore,
    calculateOwnerSatisfactionScore, calculateSustainabilityScore, pd6, pyDiv,
    except_bind_ok, except_bind_err, except_pure_eq_ok, sigmoid, simpleRealFuns,
    max_def, min_def]

theorem claim6_witness :
    ∃ sig sig2,
      calculateAllSoftSignals simpleRealFuns 0 ({} : ProductData) "general" = .ok sig ∧
      calculateAllSoftSignals simpleRealFuns 1 ({} : ProductData) "general" = .ok sig2 ∧
      (sig.fit_hint_score = sig2.fit_hint_score ∧
       sig.reliability_score = sig2.reliability_score ∧
       sig.performance_score = sig2.performance_score ∧
       sig.owner_satisfaction_score = sig2.owner_satisfaction_score ∧
       sig.uniqueness_score = sig2.uniqueness_score ∧
       sig.craftsmanship_score = sig2.craftsmanship_score ∧
       sig.sustainability_score = sig2.sustainability_score ∧
       sig.innovation_score = sig2.innovation_score) := by
  obtain ⟨sig, hsig⟩ := calcAll_ok simpleRealFuns 0 {} "general"
    (by norm_num) (by norm_num) (by norm_num)
  obtain ⟨sig2, hsig2⟩ := calcAll_ok simpleRealFuns 1 {} "general"
    (by norm_num) (by norm_num) (by norm_num)
  exact ⟨sig, sig2, hsig, hsig2,
    claim6_scores_deterministic_on_return simpleRealFuns {} "general" 0 1 sig sig2 hsig hsig2⟩

/-- The C7 counterexample: `recycled_content_percent = -400` drives the
sustainability score to `-1`, outside `[0, 1]`. -/
theorem claim7_counterexample :
    Except.map SoftSignals.sustainability_score
        (calculateAllSoftSignals simpleRealFuns 0 pd7 "general") = .ok (-1) ∧
    ¬(0 ≤ (-1 : ℚ)) := by
  refine ⟨?_, by norm_num⟩
  have h1 : ⌊((-1:ℚ) * 1000 + 1/2)⌋ = -1000 := by
    rw [Int.floor_eq_iff]
    constructor <;> norm_num
  have hr : round3 (-1 : ℚ) = -1 := by
    simp only [round3, round_eq, h1]
    norm_num
  norm_num [calculateAllSoftSignals, calculateReliabilityScore,
    calculateOwnerSatisfactionScore, calculateSustainabilityScore, pd7, pyDiv,
    except_bind_ok, except_bind_err, except_pure_eq_ok, sigmoid, simpleRealFuns,
    max_def, min_def, Except.map, hr]

theorem claim7_witness :
    ∃ sig, calculateAllSoftSignals simpleRealFuns 0 ({} : ProductData) "general" = .ok sig ∧
      0 ≤ ({} : ProductData).recycled_content_percent.getD 0 ∧
      0 ≤ ({} : ProductData).supply_chain_transparency.getD 0 ∧
      ((0 ≤ sig.fit_hint_score ∧ sig.fit_hint_score ≤ 1) ∧
       (0 ≤ sig.reliability_score ∧ sig.reliability_score ≤ 1) ∧
       (0 ≤ sig.performance_score ∧ sig.performance_score ≤ 1) ∧
       (0 ≤ sig.owner_satisfaction_score ∧ sig.owner_satisfaction_score ≤ 1) ∧
       (0 ≤ sig.uniqueness_score ∧ sig.uniqueness_score ≤ 1) ∧
       (0 ≤ sig.craftsmanship_score ∧ sig.craftsmanship_score ≤ 1) ∧
       (0 ≤ sig.sustainability_score ∧ sig.sustainability_score ≤ 1) ∧
       (0 ≤ sig.innovation_score ∧ sig.innovation_score ≤ 1)) := by
  obtain ⟨sig, hsig⟩ := calcAll_ok simpleRealFuns 0 {} "general"
    (by norm_num) (by norm_num) (by norm_num)
  exact ⟨sig, hsig, by norm_num, by norm_num,
    claim7_scores_in_unit_interval simpleRealFuns 0 {} "general" sig hsig
      (by norm_num) (by norm_num)⟩

end AXP
